
import Mathlib

/-!
Shallow embedding of the build-metrics aggregator of the sds-integration-dashboard
repository: the BuildKite fetch/cache/aggregation subsystem
(`getCachedBuilds`, `fetchBuildsFromPipeline`, `fetchBuildsParallel`,
`kpiBuildkiteCombinedAll`, `kpiBuildkiteDeploymentTime`, `weekKey`, `dayKey`).

Modelling conventions:
* Go `time.Time` values are embedded as a civil datetime `GoTime` (a proleptic
  Gregorian calendar date plus a second-of-day), all in one fixed zone, matching
  the semantics of Go's `time` package for the operations the code uses
  (`After`, `Before`, `Sub`, `Format("2006-01-02")`, `ISOWeek`).
* `float64` duration/rate arithmetic is embedded over `ℚ`.
* Go string comparison (used by `sort.Strings`) is byte-wise lexicographic;
  all bucket keys are ASCII, so it is embedded as code-point-wise comparison.
* JSON timestamp fields are embedded as the result of `parseTime`: `none`
  stands for an absent or unparseable string, `some t` for a string parsing
  to the time `t`.
-/

/-- Byte-wise (code-point-wise) lexicographic strict comparison on character
lists, the order Go uses to compare strings. -/
def strLtL : List Char → List Char → Bool
  | [], [] => false
  | [], _ :: _ => true
  | _ :: _, [] => false
  | a :: as, b :: bs =>
    if a.val < b.val then true
    else if b.val < a.val then false
    else strLtL as bs

/-- Go string `<` (byte-wise lexicographic, as used by `sort.Strings`). -/
def goStrLt (s t : String) : Bool := strLtL s.data t.data

/-- Go string `<=`. -/
def goStrLe (s t : String) : Bool := !(goStrLt t s)

/-- Decimal digit character. -/
def digitChar : Nat → Char
  | 0 => '0' | 1 => '1' | 2 => '2' | 3 => '3' | 4 => '4'
  | 5 => '5' | 6 => '6' | 7 => '7' | 8 => '8' | _ => '9'

/-- Fuel-bounded digit expansion (the fuel is always sufficient below). -/
def natDecAux (fuel : Nat) (n : Nat) : List Char :=
  match fuel with
  | 0 => []
  | fuel + 1 =>
    if n < 10 then [digitChar n]
    else natDecAux fuel (n / 10) ++ [digitChar (n % 10)]

/-- Minimal decimal rendering of a natural number, as produced by Go's
`%d` / `strconv.Itoa`. -/
def natDec (n : Nat) : List Char := natDecAux (n + 1) n

/-- Go `%d` on an integer. -/
def intDec (z : Int) : List Char :=
  if z < 0 then '-' :: natDec z.natAbs else natDec z.natAbs

/-- Go `%02d`: decimal, left-padded with `0` to at least two characters. -/
def pad2dec (n : Nat) : List Char :=
  if n < 10 then '0' :: natDec n else natDec n

/-- Exactly-two-digit rendering (for `n ≤ 99`). -/
def pad2 (n : Nat) : List Char := [digitChar (n / 10), digitChar (n % 10)]

/-- Exactly-four-digit rendering (for `n ≤ 9999`), as Go's `Format` emits for
the `2006` year field. -/
def pad4 (n : Nat) : List Char :=
  [digitChar (n / 1000), digitChar (n / 100 % 10), digitChar (n / 10 % 10), digitChar (n % 10)]

/-- A civil (proleptic Gregorian) calendar date, the date part of a Go
`time.Time`. -/
structure GoDate where
  year : Int
  month : Nat
  day : Nat
  deriving DecidableEq, Repr

/-- Gregorian leap-year rule. -/
def isLeapYear (y : Int) : Bool := y % 4 = 0 && (y % 100 ≠ 0 || y % 400 = 0)

/-- Number of days in a month, given the leap-year bit. -/
def daysInMonthB (b : Bool) (m : Nat) : Nat :=
  match m with
  | 1 => 31 | 2 => if b then 29 else 28
  | 3 => 31 | 4 => 30 | 5 => 31 | 6 => 30 | 7 => 31
  | 8 => 31 | 9 => 30 | 10 => 31 | 11 => 30 | 12 => 31
  | _ => 0

/-- Number of days in a month. -/
def daysInMonth (y : Int) (m : Nat) : Nat := daysInMonthB (isLeapYear y) m

/-- Validity of a civil date. -/
def GoDate.Valid (d : GoDate) : Prop :=
  1 ≤ d.month ∧ d.month ≤ 12 ∧ 1 ≤ d.day ∧ d.day ≤ daysInMonth d.year d.month

instance (d : GoDate) : Decidable d.Valid := by
  unfold GoDate.Valid; infer_instance

/-- Day-of-year offset of the start of a month in the March-based shifted year
(Hinnant's `(153 m' + 2) / 5` cumulative-days formula, which reproduces the
Gregorian month lengths). -/
def monthDoy (m : Nat) : Int :=
  (153 * (if 2 < m then (m : Int) - 3 else (m : Int) + 9) + 2) / 5

/-- Year of the March-based shifted calendar (January and February belong to
the previous shifted year). -/
def adjYear (d : GoDate) : Int := if d.month ≤ 2 then d.year - 1 else d.year

/-- Number of days from the Unix epoch 1970-01-01 to the given civil date
(negative for earlier dates).  This is the standard `days_from_civil`
computation; Go's `time` package performs the equivalent conversion when it
turns a wall-clock time into its internal absolute time. -/
def epochDays (d : GoDate) : Int :=
  let y := adjYear d
  365 * y + y / 4 - y / 100 + y / 400 + monthDoy d.month + (d.day : Int) - 1 - 719468

/-- Weekday with Go's numbering (Sunday = 0 ... Saturday = 6);
1970-01-01 was a Thursday (= 4). -/
def weekday (d : GoDate) : Int := (epochDays d + 4) % 7

/-- Next calendar day. -/
def succDay (d : GoDate) : GoDate :=
  if d.day < daysInMonth d.year d.month then ⟨d.year, d.month, d.day + 1⟩
  else if d.month < 12 then ⟨d.year, d.month + 1, 1⟩
  else ⟨d.year + 1, 1, 1⟩

/-- Previous calendar day. -/
def predDay (d : GoDate) : GoDate :=
  if 1 < d.day then ⟨d.year, d.month, d.day - 1⟩
  else if 1 < d.month then ⟨d.year, d.month - 1, daysInMonth d.year (d.month - 1)⟩
  else ⟨d.year - 1, 12, 31⟩

/-- Shift a civil date by a (small) number of days, as Go's
`AddDate(0, 0, k)` does on valid dates. -/
def addDays (d : GoDate) (k : Int) : GoDate :=
  if 0 ≤ k then succDay^[k.toNat] d else predDay^[(-k).toNat] d

/-- Cumulative days before the start of a month within its own calendar
year (0-based day-of-year of the month's first day), given the leap bit. -/
def daysBeforeB (b : Bool) (m : Nat) : Int :=
  let base : Int :=
    match m with
    | 1 => 0 | 2 => 31 | 3 => 59 | 4 => 90 | 5 => 120 | 6 => 151
    | 7 => 181 | 8 => 212 | 9 => 243 | 10 => 273 | 11 => 304 | _ => 334
  if 2 < m ∧ b = true then base + 1 else base

/-- Cumulative days before the start of a month within its own calendar
year (0-based day-of-year of the month's first day). -/
def daysBefore (y : Int) (m : Nat) : Int := daysBeforeB (isLeapYear y) m

/-- Zero-based day of year (Go's internal `yday`). -/
def yearDay0 (d : GoDate) : Int := daysBefore d.year d.month + (d.day : Int) - 1

/-- ISO-8601 week-year and week number, following the algorithm of Go's
`time.Time.ISOWeek`: move to the Thursday of the week (weeks start on
Monday), then take that Thursday's year and `yday/7 + 1`. -/
def isoThursday (d : GoDate) : GoDate :=
  addDays d (if weekday d = 0 then -3 else 4 - weekday d)

def isoWeek (d : GoDate) : Int × Int :=
  ((isoThursday d).year, yearDay0 (isoThursday d) / 7 + 1)

/-- Source `weekKey` (unnamed part_009): `year, week := t.ISOWeek();
fmt.Sprintf("%d-W%02d", year, week)`. -/
def weekKey (d : GoDate) : String :=
  ⟨intDec (isoWeek d).1 ++ '-' :: 'W' :: pad2dec (isoWeek d).2.toNat⟩

/-- Source `dayKey` (unnamed part_005): `t.Format("2006-01-02")`. -/
def dayKey (d : GoDate) : String :=
  ⟨pad4 d.year.toNat ++ '-' :: pad2 d.month ++ '-' :: pad2 d.day⟩

/-- A Go `time.Time`: civil date plus second-of-day, in one fixed zone. -/
structure GoTime where
  date : GoDate
  sec : Int
  deriving DecidableEq, Repr

/-- Validity of a `GoTime`. -/
def GoTime.Valid (t : GoTime) : Prop :=
  t.date.Valid ∧ 0 ≤ t.sec ∧ t.sec < 86400

instance (t : GoTime) : Decidable t.Valid := by
  unfold GoTime.Valid; infer_instance

/-- Absolute instant of a `GoTime` in seconds from the Unix epoch; Go's
`time.Time` comparisons and subtraction operate on this instant. -/
def GoTime.instant (t : GoTime) : Int := 86400 * epochDays t.date + t.sec

/-- Go `t.After(u)`. -/
def timeAfter (t u : GoTime) : Bool := u.instant < t.instant

/-- Go `t.Before(u)`. -/
def timeBefore (t u : GoTime) : Bool := t.instant < u.instant

/-- Go `f.Sub(s).Minutes()` (embedded over `ℚ`). -/
def subMinutes (f s : GoTime) : ℚ := ((f.instant - s.instant : Int) : ℚ) / 60

/-- Strict lexicographic order on civil dates. -/
def dateLt (a b : GoDate) : Prop :=
  a.year < b.year ∨ (a.year = b.year ∧ (a.month < b.month ∨ (a.month = b.month ∧ a.day < b.day)))

instance (a b : GoDate) : Decidable (dateLt a b) := by
  unfold dateLt; infer_instance

/-- Association-list lookup, embedding a read of a Go map. -/
def alookup {κ α : Type} [DecidableEq κ] (k : κ) : List (κ × α) → Option α
  | [] => none
  | (k', v) :: rest => if k' = k then some v else alookup k rest

/-- Go map read with the type's zero value as default (`m[k]` on a missing key). -/
def alookupD {κ α : Type} [DecidableEq κ] (k : κ) (m : List (κ × α)) (dflt : α) : α :=
  (alookup k m).getD dflt

/-- Go map assignment `m[k] = v`: replace the existing binding or add a new one. -/
def aset {κ α : Type} [DecidableEq κ] (k : κ) (v : α) : List (κ × α) → List (κ × α)
  | [] => [(k, v)]
  | (k', v') :: rest => if k' = k then (k, v) :: rest else (k', v') :: aset k v rest

/-- Key set of a Go map (`for k := range m`), in insertion order. -/
def keysOf {κ α : Type} (m : List (κ × α)) : List κ := m.map Prod.fst

/-- Go `weekDurations[week] = append(weekDurations[week], x)`. -/
def appendAt (m : List (String × List ℚ)) (k : String) (x : ℚ) : List (String × List ℚ) :=
  aset k (alookupD k m [] ++ [x]) m

/-- Go `m[k]++`. -/
def bumpAt (m : List (String × Nat)) (k : String) : List (String × Nat) :=
  aset k (alookupD k m 0 + 1) m

/-- Insert into a sorted list (`sort.Strings` helper). -/
def insertStr (x : String) : List String → List String
  | [] => [x]
  | y :: ys => if goStrLe x y then x :: y :: ys else y :: insertStr x ys

/-- Go `sort.Strings`: sort ascending by byte-wise comparison. -/
def sortStrings : List String → List String
  | [] => []
  | x :: xs => insertStr x (sortStrings xs)

/-- The pipeline reference inside a BuildKite build record. -/
structure BuildkitePipeline where
  slug : String
  deriving DecidableEq, Repr

/-- A BuildKite build record (`BuildkiteBuild`); the timestamp fields carry the
result of parsing the JSON string: `none` = absent or unparseable. -/
structure BuildkiteBuild where
  state : String
  startedAt : Option GoTime
  finishedAt : Option GoTime
  pipeline : BuildkitePipeline
  deriving DecidableEq, Repr

/-- Source `parseTime` (unnamed part_009): returns the zero time and `false`
when the string is empty or unparseable, else the parsed time and `true`.
Go's zero `time.Time` is January 1 of year 1. -/
def parseTime : Option GoTime → GoTime × Bool
  | none => (⟨⟨1, 1, 1⟩, 0⟩, false)
  | some t => (t, true)

/-- ASCII lower-casing of one character (`strings.ToLower` on ASCII). -/
def toLowerChar (c : Char) : Char :=
  if 'A' ≤ c ∧ c ≤ 'Z' then Char.ofNat (c.toNat + 32) else c

/-- Go `strings.ToLower` (the slugs involved are ASCII). -/
def strToLower (s : String) : String := ⟨s.data.map toLowerChar⟩

/-- Source `isDeploymentPipeline` (buildkite.go): true exactly when the
lower-cased pipeline slug is `core-stack-deployment-pipeline-legacy`. -/
def isDeploymentPipeline (b : BuildkiteBuild) : Bool :=
  strToLower b.pipeline.slug == "core-stack-deployment-pipeline-legacy"

/-- Accumulator state of the processing loop in `kpiBuildkiteCombinedAll`
(unnamed part_005): the six bucket maps. -/
structure CombinedAcc where
  weekDurations : List (String × List ℚ)
  weekPassed : List (String × Nat)
  weekFailed : List (String × Nat)
  dayDurations : List (String × List ℚ)
  dayPassed : List (String × Nat)
  dayFailed : List (String × Nat)
  deriving DecidableEq, Repr

def emptyAcc : CombinedAcc := ⟨[], [], [], [], [], []⟩

/-- Body of the per-build loop of `kpiBuildkiteCombinedAll` (unnamed
part_005, lines 324–370): skip non-deployment pipelines and unparseable
`finishedAt`; weekly buckets unconditionally, daily buckets only when
`finishedAt.After(thirtyDaysAgo)`. -/
def processBuild (thirtyDaysAgo : GoTime) (acc : CombinedAcc) (b : BuildkiteBuild) :
    CombinedAcc :=
  if !isDeploymentPipeline b then acc
  else
    let pf := parseTime b.finishedAt
    if !pf.2 then acc
    else
      let finishedAt := pf.1
      let week := weekKey finishedAt.date
      let day := dayKey finishedAt.date
      let acc1 :=
        if b.state == "passed" then
          let ps := parseTime b.startedAt
          let acc' :=
            if ps.2 && timeAfter finishedAt ps.1 then
              { acc with weekDurations :=
                  appendAt acc.weekDurations week (subMinutes finishedAt ps.1) }
            else acc
          { acc' with weekPassed := bumpAt acc'.weekPassed week }
        else acc
      let acc2 :=
        if b.state == "failed" then
          { acc1 with weekFailed := bumpAt acc1.weekFailed week }
        else acc1
      if timeAfter finishedAt thirtyDaysAgo then
        let acc3 :=
          if b.state == "passed" then
            let ps := parseTime b.startedAt
            let acc' :=
              if ps.2 && timeAfter finishedAt ps.1 then
                { acc2 with dayDurations :=
                    appendAt acc2.dayDurations day (subMinutes finishedAt ps.1) }
              else acc2
            { acc' with dayPassed := bumpAt acc'.dayPassed day }
          else acc2
        if b.state == "failed" then
          { acc3 with dayFailed := bumpAt acc3.dayFailed day }
        else acc3
      else acc2

/-- The whole processing loop of `kpiBuildkiteCombinedAll`. -/
def combinedAcc (thirtyDaysAgo : GoTime) (builds : List BuildkiteBuild) : CombinedAcc :=
  builds.foldl (processBuild thirtyDaysAgo) emptyAcc

/-- The `deployment_time` object of the response: bucket keys (only buckets
holding at least one valid duration) plus the average series. -/
structure BucketSeries where
  keys : List String
  avgDurationMins : List ℚ
  deriving DecidableEq, Repr

/-- The `failure_rate` object of the response. -/
structure FailureRateSeries where
  keys : List String
  failureRate : List ℚ
  passed : List Nat
  failed : List Nat
  deriving DecidableEq, Repr

/-- One granularity (weekly or daily) of the combined response. -/
structure CombinedPayload where
  deploymentTime : BucketSeries
  failureRate : FailureRateSeries
  deriving DecidableEq, Repr

/-- Average-duration series over the sorted keys of a duration map
(the code guards `len(durations) > 0`, writing `0` otherwise). -/
def bucketSeriesOf (durMap : List (String × List ℚ)) : BucketSeries :=
  let ks := sortStrings (keysOf durMap)
  ⟨ks, ks.map (fun w =>
    let durations := alookupD w durMap []
    if 0 < durations.length then durations.sum / (durations.length : ℚ) else 0)⟩

/-- Failure-rate series over the sorted union of the passed and failed key
sets: `failed/(passed+failed)*100`, `0` when the bucket has no terminal
builds. -/
def failureRateSeriesOf (passed failed : List (String × Nat)) : FailureRateSeries :=
  let ks := sortStrings ((keysOf passed ++ keysOf failed).dedup)
  ⟨ks,
   ks.map (fun w =>
     let p := alookupD w passed 0
     let f := alookupD w failed 0
     if 0 < p + f then (f : ℚ) / ((p : ℚ) + (f : ℚ)) * 100 else 0),
   ks.map (fun w => alookupD w passed 0),
   ks.map (fun w => alookupD w failed 0)⟩

/-- The `"weekly"` half of `kpiBuildkiteCombinedAll`'s response. -/
def weeklyPayload (acc : CombinedAcc) : CombinedPayload :=
  ⟨bucketSeriesOf acc.weekDurations, failureRateSeriesOf acc.weekPassed acc.weekFailed⟩

/-- The `"daily"` half of `kpiBuildkiteCombinedAll`'s response. -/
def dailyPayload (acc : CombinedAcc) : CombinedPayload :=
  ⟨bucketSeriesOf acc.dayDurations, failureRateSeriesOf acc.dayPassed acc.dayFailed⟩

/-- The two configured deployment pipelines (`fetchBuildsParallel`,
unnamed part_005). -/
def buildkitePipelines : List String :=
  ["core-stack-deployment-pipeline", "core-stack-deployment-pipeline-legacy"]

/-- Source `fetchBuildsParallel` (unnamed part_005, lines 261–279): iterate
the configured pipelines; a per-pipeline error is logged and skipped
(`continue`), and the function always ends with `return allBuilds, nil` —
the error component of the result is always `nil`. The per-pipeline fetch
outcome is abstracted as `fetchPipe`. -/
def fetchBuildsParallel (fetchPipe : String → Except String (List BuildkiteBuild)) :
    List BuildkiteBuild × Option String :=
  (buildkitePipelines.foldl (fun allBuilds pipeline =>
      match fetchPipe pipeline with
      | .ok builds => allBuilds ++ builds
      | .error _ => allBuilds) [],
   none)

/-- Source cache TTL: `buildkiteCacheTTL = 5 * time.Minute`, in seconds. -/
def buildkiteCacheTTL : Int := 300

/-- The process-wide BuildKite cache: at most one entry, holding the merged
build list and the `FetchedAt` timestamp (seconds). -/
structure CacheState where
  entry : Option (List BuildkiteBuild × Int)
  deriving DecidableEq, Repr

/-- Source `getCachedBuilds` (unnamed part_005, lines 99–125).
`now` is the current wall clock in seconds (used both for the TTL check and
as the new entry's `FetchedAt`); `createdFrom` is the caller's time lower
bound, passed through to the fetch.  Returns the builds, the error, and the
cache state after the call. -/
def getCachedBuilds (st : CacheState) (now : Int) (createdFrom : GoTime)
    (fetchPipe : GoTime → String → Except String (List BuildkiteBuild)) :
    (List BuildkiteBuild × Option String) × CacheState :=
  let miss :=
    let res := fetchBuildsParallel (fetchPipe createdFrom)
    match res.2 with
    | some e => (([], some e), st)
    | none => ((res.1, none), CacheState.mk (some (res.1, now)))
  match st.entry with
  | some (builds, fetchedAt) =>
    if now - fetchedAt < buildkiteCacheTTL then ((builds, none), st) else miss
  | none => miss

/-- The three possible responses of the combined-metrics handler. -/
inductive HandlerResponse where
  | serviceUnavailable (missing : List String)
  | badGateway (msg : String)
  | ok (weekly daily : CombinedPayload)
  deriving DecidableEq, Repr

/-- Source `kpiBuildkiteCombinedAll` (unnamed part_005, lines 282–510):
config check, one cached fetch, then the weekly and daily reductions over
the same `builds` list.  `configured`/`missing` stand for `buildkiteConfig`;
`threeMonthsAgo`/`thirtyDaysAgo`/`now` stand for the values the handler
derives from `time.Now()`. -/
def kpiBuildkiteCombinedAll (configured : Bool) (missing : List String)
    (st : CacheState) (now : Int) (threeMonthsAgo thirtyDaysAgo : GoTime)
    (fetchPipe : GoTime → String → Except String (List BuildkiteBuild)) :
    HandlerResponse × CacheState :=
  if !configured then (.serviceUnavailable missing, st)
  else
    let r := getCachedBuilds st now threeMonthsAgo fetchPipe
    match r.1.2 with
    | some e => (.badGateway e, r.2)
    | none =>
      let builds := r.1.1
      let acc := combinedAcc thirtyDaysAgo builds
      (.ok (weeklyPayload acc) (dailyPayload acc), r.2)

/-- Body of the per-build loop of `kpiBuildkiteDeploymentTime`
(buildkite.go, lines 131–177): note the eligibility test
`!okStart || !okFinish || finishedAt.Before(startedAt)` — a record with
`finishedAt` equal to `startedAt` is NOT skipped. -/
def deploymentTimeFold (acc : List (String × List ℚ)) (b : BuildkiteBuild) :
    List (String × List ℚ) :=
  if b.state != "passed" then acc
  else if !isDeploymentPipeline b then acc
  else
    let ps := parseTime b.startedAt
    let pf := parseTime b.finishedAt
    if !ps.2 || !pf.2 || timeBefore pf.1 ps.1 then acc
    else appendAt acc (weekKey pf.1.date) (subMinutes pf.1 ps.1)

/-- The `weekDurations` map built by `kpiBuildkiteDeploymentTime`. -/
def deploymentTimeWeekDurations (builds : List BuildkiteBuild) :
    List (String × List ℚ) :=
  builds.foldl deploymentTimeFold []

/-- One page result of the parallel pagination in `fetchBuildsFromPipeline`
(unnamed part_005): the `pageResult` struct sent on the results channel. -/
structure PageResult where
  page : Nat
  builds : List BuildkiteBuild
  err : Option String
  deriving DecidableEq, Repr

/-- The collection loop of `fetchBuildsFromPipeline` (unnamed part_005,
lines 237–246): read results in arrival order; an error is logged and
skipped, an empty page BREAKS out of the loop (discarding every result
still unread), a non-empty page is stored keyed by its page number. -/
def collectPages (arrivals : List PageResult)
    (allBuilds : List (Nat × List BuildkiteBuild)) : List (Nat × List BuildkiteBuild) :=
  match arrivals with
  | [] => allBuilds
  | r :: rest =>
    match r.err with
    | some _ => collectPages rest allBuilds
    | none =>
      if r.builds.isEmpty then allBuilds
      else collectPages rest (aset r.page r.builds allBuilds)

/-- Page reassembly of `fetchBuildsFromPipeline` (unnamed part_005, lines
227–254): seed the map with page 1, collect the arriving results, then
concatenate pages 1..totalPages in page-number order, skipping absent
pages. -/
def combinePages (totalPages : Nat) (firstPageBuilds : List BuildkiteBuild)
    (arrivals : List PageResult) : List BuildkiteBuild :=
  let allBuilds := collectPages arrivals [(1, firstPageBuilds)]
  (List.range' 1 totalPages).foldl (fun combined page =>
    match alookup page allBuilds with
    | some builds => combined ++ builds
    | none => combined) []

/-- Weekly duration eligibility, read off the loop of
`kpiBuildkiteCombinedAll`: deployment pipeline, parseable `finishedAt`,
state `passed`, parseable `startedAt`, and `finishedAt` strictly after
`startedAt`. -/
def durEligible (b : BuildkiteBuild) : Bool :=
  isDeploymentPipeline b && (parseTime b.finishedAt).2 && (b.state == "passed")
    && (parseTime b.startedAt).2
    && timeAfter (parseTime b.finishedAt).1 (parseTime b.startedAt).1

/-- Contributes to a week's (or day's) passed count: deployment pipeline,
parseable `finishedAt`, state `passed`. -/
def passedEligible (b : BuildkiteBuild) : Bool :=
  isDeploymentPipeline b && (parseTime b.finishedAt).2 && (b.state == "passed")

/-- Contributes to a week's (or day's) failed count. -/
def failedEligible (b : BuildkiteBuild) : Bool :=
  isDeploymentPipeline b && (parseTime b.finishedAt).2 && (b.state == "failed")

/-- The record's duration in minutes. -/
def buildDuration (b : BuildkiteBuild) : ℚ :=
  subMinutes (parseTime b.finishedAt).1 (parseTime b.startedAt).1

/-- The record's week bucket key. -/
def buildWeek (b : BuildkiteBuild) : String := weekKey (parseTime b.finishedAt).1.date

/-- The record's day bucket key. -/
def buildDay (b : BuildkiteBuild) : String := dayKey (parseTime b.finishedAt).1.date

/-- The record (with parseable `finishedAt`) falls in the trailing-30-days
window: `finishedAt.After(thirtyDaysAgo)`. -/
def inDaily (thirtyDaysAgo : GoTime) (b : BuildkiteBuild) : Bool :=
  timeAfter (parseTime b.finishedAt).1 thirtyDaysAgo

/-- Arithmetic mean of a list of rationals (0 for the empty list). -/
def meanQ (l : List ℚ) : ℚ := l.sum / (l.length : ℚ)

/-- The record filter described by claim C3's wording: passed, parseable
`startedAt`/`finishedAt`, `finishedAt` strictly after `startedAt` — note it
has NO pipeline condition.  Written from the claim for comparison with the
code's behaviour. -/
def specC3DurFilter (b : BuildkiteBuild) : Bool :=
  (parseTime b.finishedAt).2 && (b.state == "passed") && (parseTime b.startedAt).2
    && timeAfter (parseTime b.finishedAt).1 (parseTime b.startedAt).1

/-- The mean claim C3 describes at week `w`: over exactly the
`specC3DurFilter` records finishing in that ISO week. -/
def specC3MeanAt (builds : List BuildkiteBuild) (w : String) : ℚ :=
  meanQ ((builds.filter (fun b => specC3DurFilter b && (buildWeek b == w))).map buildDuration)

/-- The legacy deployment pipeline (the only slug `isDeploymentPipeline`
accepts). -/
def legacyPipeline : BuildkitePipeline := ⟨"core-stack-deployment-pipeline-legacy"⟩

/-- The other configured pipeline, also fetched by `fetchBuildsParallel`. -/
def mainPipeline : BuildkitePipeline := ⟨"core-stack-deployment-pipeline"⟩

/-- Scenario start time `T`: 2024-06-03 10:00:00 (ISO week 2024-W23). -/
def scnStart : GoTime := ⟨⟨2024, 6, 3⟩, 36000⟩

/-- Scenario record 1: passed, started `T`, finished `T`+10min. -/
def scnBuild1 : BuildkiteBuild :=
  ⟨"passed", some scnStart, some ⟨⟨2024, 6, 3⟩, 36600⟩, legacyPipeline⟩

/-- Scenario record 2: passed, started `T`, finished `T`+20min. -/
def scnBuild2 : BuildkiteBuild :=
  ⟨"passed", some scnStart, some ⟨⟨2024, 6, 3⟩, 37200⟩, legacyPipeline⟩

/-- Scenario record 3: failed, finished 2024-06-10 (ISO week 2024-W24). -/
def scnBuild3 : BuildkiteBuild :=
  ⟨"failed", none, some ⟨⟨2024, 6, 10⟩, 43200⟩, legacyPipeline⟩

/-- The two-week scenario record set of the spec. -/
def scnBuilds : List BuildkiteBuild := [scnBuild1, scnBuild2, scnBuild3]

/-- A daily cutoff lying before all scenario records. -/
def scnCutoff : GoTime := ⟨⟨2024, 5, 20⟩, 0⟩

/-- A passed build of the non-legacy deployment pipeline, same week as the
scenario, 20-minute duration. -/
def scnOtherPipelineBuild : BuildkiteBuild :=
  ⟨"passed", some scnStart, some ⟨⟨2024, 6, 3⟩, 37200⟩, mainPipeline⟩

/-- A passed build whose `finishedAt` equals its `startedAt`. -/
def scnEqualTimesBuild : BuildkiteBuild :=
  ⟨"passed", some scnStart, some scnStart, legacyPipeline⟩

/-- The `now` of the daily-window scenario: 2024-06-15 12:00:00. -/
def scnNow : GoTime := ⟨⟨2024, 6, 15⟩, 43200⟩

/-- Result of `now.AddDate(0, 0, -30)`: 2024-05-16 12:00:00. -/
def scnThirtyDaysAgo : GoTime := ⟨addDays scnNow.date (-30), scnNow.sec⟩

/-- A passed record whose `finishedAt` is 45 days before `scnNow`. -/
def scnBuild45 : BuildkiteBuild :=
  ⟨"passed", some ⟨⟨2024, 5, 1⟩, 0⟩, some ⟨⟨2024, 5, 1⟩, 600⟩, legacyPipeline⟩

/-- A passed record whose `finishedAt` is 10 days before `scnNow`. -/
def scnBuild10 : BuildkiteBuild :=
  ⟨"passed", some ⟨⟨2024, 6, 5⟩, 0⟩, some ⟨⟨2024, 6, 5⟩, 600⟩, legacyPipeline⟩

/-- Distinct marker builds used in the pagination scenarios. -/
def pgBuildA : BuildkiteBuild := ⟨"passed", none, none, legacyPipeline⟩

def pgBuildB : BuildkiteBuild := ⟨"failed", none, none, legacyPipeline⟩

def pgBuildC : BuildkiteBuild := ⟨"running", none, none, legacyPipeline⟩

/-- A cache state on which `getCachedBuilds` misses at time `now`: no entry,
or an entry at least the TTL old. -/
def cacheMiss (st : CacheState) (now : Int) : Prop :=
  match st.entry with
  | none => True
  | some (_, fetchedAt) => ¬ (now - fetchedAt < buildkiteCacheTTL)

/-- A legacy-pipeline passed build (10 min) and a non-legacy passed build
(20 min) finishing in the same week. -/
def scnMixedBuilds : List BuildkiteBuild := [scnBuild1, scnOtherPipelineBuild]

lemma isLeapYear_iff (y : Int) :
    isLeapYear y = true ↔ (y % 4 = 0 ∧ (y % 100 ≠ 0 ∨ y % 400 = 0)) := by
  simp [isLeapYear, Bool.and_eq_true, Bool.or_eq_true, decide_eq_true_iff]

lemma epochDays_jan1 (y : Int) :
    epochDays ⟨y, 1, 1⟩ =
      365 * (y - 1) + (y - 1) / 4 - (y - 1) / 100 + (y - 1) / 400 - 719162 := by
  simp only [epochDays, adjYear, monthDoy]
  norm_num
  omega

lemma epochDays_year_length (y : Int) :
    epochDays ⟨y + 1, 1, 1⟩ =
      epochDays ⟨y, 1, 1⟩ + 365 + (if isLeapYear y = true then 1 else 0) := by
  rw [epochDays_jan1, epochDays_jan1]
  have h := isLeapYear_iff y
  split
  · rename_i hb
    have := h.mp hb
    omega
  · rename_i hb
    have : ¬(y % 4 = 0 ∧ (y % 100 ≠ 0 ∨ y % 400 = 0)) := fun hc => hb (h.mpr hc)
    omega

set_option maxHeartbeats 1000000 in
lemma epochDays_inYear (d : GoDate) (h : d.Valid) :
    epochDays d = epochDays ⟨d.year, 1, 1⟩ + yearDay0 d := by
  obtain ⟨h1, h2, h3, h4⟩ := h
  obtain ⟨y, m, dd⟩ := d
  have hl := isLeapYear_iff y
  simp only [daysInMonth, daysInMonthB] at h4
  simp only [epochDays_jan1, epochDays, adjYear, monthDoy, yearDay0, daysBefore, daysBeforeB]
  simp only at h1 h2 h3 h4
  by_cases hb : isLeapYear y = true
  · replace hl := hl.mp hb
    simp [hb] at h4 ⊢
    interval_cases m <;> norm_num <;> omega
  · replace hl : ¬(y % 4 = 0 ∧ (y % 100 ≠ 0 ∨ y % 400 = 0)) := fun hc => hb (hl.mpr hc)
    rw [Bool.not_eq_true] at hb
    simp [hb] at h4 ⊢
    interval_cases m <;> norm_num <;> omega

lemma daysBeforeB_gap : ∀ (b : Bool), ∀ m1 m2 : Fin 13, 1 ≤ m1.val → m1.val < m2.val →
    daysBeforeB b m1.val + (daysInMonthB b m1.val : Int) ≤ daysBeforeB b m2.val := by
  intro b
  cases b <;> decide

lemma yearDay0_bounds_core : ∀ (b : Bool), ∀ m : Fin 13, ∀ dd : Fin 32,
    1 ≤ m.val → 1 ≤ dd.val → dd.val ≤ daysInMonthB b m.val →
    0 ≤ daysBeforeB b m.val + (dd.val : Int) - 1 ∧
    daysBeforeB b m.val + (dd.val : Int) - 1 ≤ 364 + (if b = true then 1 else 0) := by
  intro b
  cases b <;> decide

lemma daysInMonthB_le : ∀ (b : Bool), ∀ m : Fin 13, daysInMonthB b m.val ≤ 31 := by
  intro b
  cases b <;> decide

lemma yearDay0_bounds (d : GoDate) (h : d.Valid) :
    0 ≤ yearDay0 d ∧ yearDay0 d ≤ 364 + (if isLeapYear d.year = true then 1 else 0) := by
  obtain ⟨h1, h2, h3, h4⟩ := h
  have hdim : daysInMonthB (isLeapYear d.year) d.month ≤ 31 :=
    daysInMonthB_le (isLeapYear d.year) ⟨d.month, by omega⟩
  simp only [daysInMonth] at h4
  exact yearDay0_bounds_core (isLeapYear d.year) ⟨d.month, by omega⟩ ⟨d.day, by omega⟩
    h1 h3 h4

lemma yearDay0_lt {a b : GoDate} (ha : a.Valid) (hb : b.Valid) (hy : a.year = b.year)
    (h : a.month < b.month ∨ (a.month = b.month ∧ a.day < b.day)) :
    yearDay0 a < yearDay0 b := by
  obtain ⟨ha1, ha2, ha3, ha4⟩ := ha
  obtain ⟨hb1, hb2, hb3, hb4⟩ := hb
  simp only [daysInMonth] at ha4 hb4
  rcases h with hm | ⟨hm, hd⟩
  · have hgap : daysBeforeB (isLeapYear a.year) a.month +
        (daysInMonthB (isLeapYear a.year) a.month : Int) ≤
        daysBeforeB (isLeapYear a.year) b.month :=
      daysBeforeB_gap (isLeapYear a.year) ⟨a.month, by omega⟩ ⟨b.month, by omega⟩
        (by exact ha1) (by exact hm)
    simp only [yearDay0, daysBefore] at *
    rw [← hy]
    omega
  · simp only [yearDay0, daysBefore] at *
    rw [← hy, hm]
    omega

lemma epochDays_year_start_mono {y y' : Int} (h : y ≤ y') :
    epochDays ⟨y, 1, 1⟩ ≤ epochDays ⟨y', 1, 1⟩ := by
  rw [epochDays_jan1, epochDays_jan1]
  omega

lemma epochDays_next_jan1 (d : GoDate) (h : d.Valid) :
    epochDays d < epochDays ⟨d.year + 1, 1, 1⟩ := by
  rw [epochDays_inYear d h, epochDays_year_length d.year]
  have := yearDay0_bounds d h
  omega

lemma epochDays_day_ge (d : GoDate) (h : d.Valid) :
    epochDays ⟨d.year, 1, 1⟩ ≤ epochDays d := by
  rw [epochDays_inYear d h]
  have := yearDay0_bounds d h
  omega

/-- The function `epochDays` is strictly monotone on valid civil dates. -/
theorem epochDays_strictMono {a b : GoDate} (ha : a.Valid) (hb : b.Valid)
    (hab : dateLt a b) : epochDays a < epochDays b := by
  rcases hab with hy | ⟨hy, hmd⟩
  · calc epochDays a < epochDays ⟨a.year + 1, 1, 1⟩ := epochDays_next_jan1 a ha
      _ ≤ epochDays ⟨b.year, 1, 1⟩ := epochDays_year_start_mono (by omega)
      _ ≤ epochDays b := epochDays_day_ge b hb
  · rw [epochDays_inYear a ha, epochDays_inYear b hb, hy]
    have := yearDay0_lt ha hb hy hmd
    omega

lemma daysBeforeB_succ : ∀ (b : Bool), ∀ m : Fin 13, 1 ≤ m.val → m.val < 12 →
    daysBeforeB b (m.val + 1) = daysBeforeB b m.val + (daysInMonthB b m.val : Int) := by
  intro b
  cases b <;> decide

lemma daysInMonthB_pos : ∀ (b : Bool), ∀ m : Fin 13, 1 ≤ m.val → 28 ≤ daysInMonthB b m.val := by
  intro b
  cases b <;> decide

lemma daysInMonthB_twelve (b : Bool) : daysInMonthB b 12 = 31 := by
  cases b <;> rfl

lemma daysInMonth_ge (y : Int) (m : Nat) (h1 : 1 ≤ m) (h2 : m ≤ 12) :
    28 ≤ daysInMonth y m := by
  have hp : 28 ≤ daysInMonthB (isLeapYear y) m :=
    daysInMonthB_pos (isLeapYear y) ⟨m, by omega⟩ (by exact h1)
  simpa [daysInMonth] using hp

lemma daysBefore_succ (y : Int) (m : Nat) (h1 : 1 ≤ m) (h2 : m < 12) :
    daysBefore y (m + 1) = daysBefore y m + (daysInMonth y m : Int) := by
  have hp : daysBeforeB (isLeapYear y) (m + 1) =
      daysBeforeB (isLeapYear y) m + (daysInMonthB (isLeapYear y) m : Int) :=
    daysBeforeB_succ (isLeapYear y) ⟨m, by omega⟩ (by exact h1) (by exact h2)
  simpa [daysBefore, daysInMonth] using hp

lemma daysInMonth_twelve (y : Int) : daysInMonth y 12 = 31 := by
  simp [daysInMonth, daysInMonthB_twelve]

lemma epochDays_mk (y : Int) (m dd : Nat) (hv : GoDate.Valid ⟨y, m, dd⟩) :
    epochDays ⟨y, m, dd⟩ = epochDays ⟨y, 1, 1⟩ + daysBefore y m + (dd : Int) - 1 := by
  have h := epochDays_inYear ⟨y, m, dd⟩ hv
  simp only [yearDay0] at h
  simp only [h]
  ring

lemma valid_mk (y : Int) (m dd : Nat) (h1 : 1 ≤ m) (h2 : m ≤ 12) (h3 : 1 ≤ dd)
    (h4 : dd ≤ daysInMonth y m) : GoDate.Valid ⟨y, m, dd⟩ := ⟨h1, h2, h3, h4⟩

lemma succDay_spec (d : GoDate) (h : d.Valid) :
    (succDay d).Valid ∧ epochDays (succDay d) = epochDays d + 1 := by
  obtain ⟨y, m, dd⟩ := d
  obtain ⟨h1, h2, h3, h4⟩ := h
  simp only at h1 h2 h3 h4
  unfold succDay
  simp only
  by_cases hd : dd < daysInMonth y m
  · rw [if_pos hd]
    have hv1 : GoDate.Valid ⟨y, m, dd⟩ := ⟨h1, h2, h3, h4⟩
    have hv2 : GoDate.Valid ⟨y, m, dd + 1⟩ := valid_mk y m (dd + 1) h1 h2 (by omega) (by omega)
    refine ⟨hv2, ?_⟩
    rw [epochDays_mk y m (dd + 1) hv2, epochDays_mk y m dd hv1]
    push_cast
    ring
  · by_cases hm : m < 12
    · rw [if_neg hd, if_pos hm]
      have hstep := daysBefore_succ y m h1 hm
      have hpos := daysInMonth_ge y (m + 1) (by omega) (by omega)
      have hv1 : GoDate.Valid ⟨y, m, dd⟩ := ⟨h1, h2, h3, h4⟩
      have hv2 : GoDate.Valid ⟨y, m + 1, 1⟩ := valid_mk y (m + 1) 1 (by omega) (by omega) (le_refl 1) (by omega)
      refine ⟨hv2, ?_⟩
      rw [epochDays_mk y (m + 1) 1 hv2, epochDays_mk y m dd hv1]
      omega
    · rw [if_neg hd, if_neg hm]
      have hm12 : m = 12 := by omega
      subst hm12
      have hdim := daysInMonth_twelve y
      have hd31 : dd = 31 := by omega
      subst hd31
      have hv1 : GoDate.Valid ⟨y, 12, 31⟩ := ⟨h1, h2, h3, h4⟩
      have hv2 : GoDate.Valid ⟨y + 1, 1, 1⟩ := by
        refine valid_mk (y + 1) 1 1 (le_refl 1) (by omega) (le_refl 1) ?_
        have := daysInMonth_ge (y + 1) 1 (le_refl 1) (by omega)
        omega
      refine ⟨hv2, ?_⟩
      rw [epochDays_year_length, epochDays_mk y 12 31 hv1]
      simp only [daysBefore, daysBeforeB]
      by_cases hsp : isLeapYear y = true
      · simp only [hsp]
        norm_num
        omega
      · rw [Bool.not_eq_true] at hsp
        simp only [hsp]
        norm_num
        omega

lemma predDay_spec (d : GoDate) (h : d.Valid) :
    (predDay d).Valid ∧ epochDays (predDay d) = epochDays d - 1 := by
  obtain ⟨y, m, dd⟩ := d
  obtain ⟨h1, h2, h3, h4⟩ := h
  simp only at h1 h2 h3 h4
  unfold predDay
  simp only
  by_cases hd : 1 < dd
  · rw [if_pos hd]
    have hv1 : GoDate.Valid ⟨y, m, dd⟩ := ⟨h1, h2, h3, h4⟩
    have hv2 : GoDate.Valid ⟨y, m, dd - 1⟩ := valid_mk y m (dd - 1) h1 h2 (by omega) (by omega)
    refine ⟨hv2, ?_⟩
    rw [epochDays_mk y m (dd - 1) hv2, epochDays_mk y m dd hv1]
    omega
  · by_cases hm : 1 < m
    · rw [if_neg hd, if_pos hm]
      have hstep := daysBefore_succ y (m - 1) (by omega) (by omega)
      have hmm : m - 1 + 1 = m := by omega
      rw [hmm] at hstep
      have hpos := daysInMonth_ge y (m - 1) (by omega) (by omega)
      have hd1 : dd = 1 := by omega
      have hv1 : GoDate.Valid ⟨y, m, dd⟩ := ⟨h1, h2, h3, h4⟩
      have hv2 : GoDate.Valid ⟨y, m - 1, daysInMonth y (m - 1)⟩ :=
        valid_mk y (m - 1) (daysInMonth y (m - 1)) (by omega) (by omega) (by omega) (le_refl _)
      refine ⟨hv2, ?_⟩
      rw [epochDays_mk y (m - 1) (daysInMonth y (m - 1)) hv2, epochDays_mk y m dd hv1]
      omega
    · rw [if_neg hd, if_neg hm]
      have hm1 : m = 1 := by omega
      have hd1 : dd = 1 := by omega
      have hv1 : GoDate.Valid ⟨y, m, dd⟩ := ⟨h1, h2, h3, h4⟩
      have hv2 : GoDate.Valid ⟨y - 1, 12, 31⟩ := by
        refine valid_mk (y - 1) 12 31 (by omega) (le_refl 12) (by omega) ?_
        rw [daysInMonth_twelve]
      refine ⟨hv2, ?_⟩
      rw [epochDays_mk (y - 1) 12 31 hv2]
      have hyl := epochDays_year_length (y - 1)
      have hsub : y - 1 + 1 = y := by omega
      rw [hsub] at hyl
      subst hm1 hd1
      simp only [daysBefore, daysBeforeB]
      rw [hyl]
      by_cases hsp : isLeapYear (y - 1) = true
      · simp only [hsp]
        norm_num
        omega
      · rw [Bool.not_eq_true] at hsp
        simp only [hsp]
        norm_num
        omega

lemma succDay_iter_spec (n : Nat) (d : GoDate) (h : d.Valid) :
    (succDay^[n] d).Valid ∧ epochDays (succDay^[n] d) = epochDays d + n := by
  induction n generalizing d with
  | zero =>
    exact ⟨h, by simp⟩
  | succ k ih =>
    rw [Function.iterate_succ_apply]
    obtain ⟨hv, he⟩ := succDay_spec d h
    obtain ⟨hv2, he2⟩ := ih (succDay d) hv
    refine ⟨hv2, ?_⟩
    rw [he2, he]
    push_cast
    ring

lemma predDay_iter_spec (n : Nat) (d : GoDate) (h : d.Valid) :
    (predDay^[n] d).Valid ∧ epochDays (predDay^[n] d) = epochDays d - n := by
  induction n generalizing d with
  | zero =>
    exact ⟨h, by simp⟩
  | succ k ih =>
    rw [Function.iterate_succ_apply]
    obtain ⟨hv, he⟩ := predDay_spec d h
    obtain ⟨hv2, he2⟩ := ih (predDay d) hv
    refine ⟨hv2, ?_⟩
    rw [he2, he]
    push_cast
    ring

lemma addDays_spec (d : GoDate) (k : Int) (h : d.Valid) :
    (addDays d k).Valid ∧ epochDays (addDays d k) = epochDays d + k := by
  unfold addDays
  by_cases hk : 0 ≤ k
  · rw [if_pos hk]
    obtain ⟨hv, he⟩ := succDay_iter_spec k.toNat d h
    refine ⟨hv, ?_⟩
    rw [he]
    omega
  · rw [if_neg hk]
    obtain ⟨hv, he⟩ := predDay_iter_spec (-k).toNat d h
    refine ⟨hv, ?_⟩
    rw [he]
    omega

lemma isoThursday_spec (d : GoDate) (h : d.Valid) :
    (isoThursday d).Valid ∧ epochDays (isoThursday d) = 7 * ((epochDays d + 3) / 7) := by
  unfold isoThursday
  obtain ⟨hv, he⟩ := addDays_spec d (if weekday d = 0 then -3 else 4 - weekday d) h
  refine ⟨hv, ?_⟩
  rw [he]
  unfold weekday
  split <;> omega

lemma epochDays_year_length_ge (y : Int) :
    epochDays ⟨y, 1, 1⟩ + 365 ≤ epochDays ⟨y + 1, 1, 1⟩ := by
  rw [epochDays_year_length]
  split <;> omega

lemma yearDay0_eq_sub (d : GoDate) (h : d.Valid) :
    yearDay0 d = epochDays d - epochDays ⟨d.year, 1, 1⟩ := by
  rw [epochDays_inYear d h]
  ring

/-- The ISO week pair is monotone (lexicographically) in the instant. -/
lemma isoWeek_mono {a b : GoDate} (ha : a.Valid) (hb : b.Valid)
    (hle : epochDays a ≤ epochDays b) :
    (isoWeek a).1 < (isoWeek b).1 ∨
      ((isoWeek a).1 = (isoWeek b).1 ∧ (isoWeek a).2 ≤ (isoWeek b).2) := by
  obtain ⟨hv1, he1⟩ := isoThursday_spec a ha
  obtain ⟨hv2, he2⟩ := isoThursday_spec b hb
  have hth : epochDays (isoThursday a) ≤ epochDays (isoThursday b) := by
    rw [he1, he2]
    omega
  have hy : (isoThursday a).year ≤ (isoThursday b).year := by
    by_contra hc
    push_neg at hc
    have := epochDays_strictMono hv2 hv1 (Or.inl hc)
    omega
  rcases lt_or_eq_of_le hy with hlt | heq
  · exact Or.inl hlt
  · refine Or.inr ⟨heq, ?_⟩
    show yearDay0 (isoThursday a) / 7 + 1 ≤ yearDay0 (isoThursday b) / 7 + 1
    rw [yearDay0_eq_sub _ hv1, yearDay0_eq_sub _ hv2, heq]
    omega

lemma isoWeek_week_bounds (d : GoDate) (h : d.Valid) :
    1 ≤ (isoWeek d).2 ∧ (isoWeek d).2 ≤ 53 := by
  obtain ⟨hv, _⟩ := isoThursday_spec d h
  have hb := yearDay0_bounds (isoThursday d) hv
  show 1 ≤ yearDay0 (isoThursday d) / 7 + 1 ∧ yearDay0 (isoThursday d) / 7 + 1 ≤ 53
  split at hb <;> omega

lemma isoWeek_year_near (d : GoDate) (h : d.Valid) :
    d.year - 1 ≤ (isoWeek d).1 ∧ (isoWeek d).1 ≤ d.year + 1 := by
  obtain ⟨hv, he⟩ := isoThursday_spec d h
  show d.year - 1 ≤ (isoThursday d).year ∧ (isoThursday d).year ≤ d.year + 1
  have hnear : epochDays d - 3 ≤ epochDays (isoThursday d) ∧
      epochDays (isoThursday d) ≤ epochDays d + 3 := by
    rw [he]
    omega
  constructor
  · by_contra hc
    push_neg at hc
    have h1 : epochDays (isoThursday d) < epochDays ⟨(isoThursday d).year + 1, 1, 1⟩ :=
      epochDays_next_jan1 _ hv
    have h2 : epochDays ⟨(isoThursday d).year + 1, 1, 1⟩ ≤ epochDays ⟨d.year - 1, 1, 1⟩ :=
      epochDays_year_start_mono (by omega)
    have h3 := epochDays_year_length_ge (d.year - 1)
    have h4 : epochDays ⟨d.year - 1 + 1, 1, 1⟩ ≤ epochDays d := by
      rw [show d.year - 1 + 1 = d.year from by omega]
      exact epochDays_day_ge d h
    omega
  · by_contra hc
    push_neg at hc
    have h1 : epochDays ⟨(isoThursday d).year, 1, 1⟩ ≤ epochDays (isoThursday d) :=
      epochDays_day_ge _ hv
    have h2 : epochDays ⟨d.year + 2, 1, 1⟩ ≤ epochDays ⟨(isoThursday d).year, 1, 1⟩ :=
      epochDays_year_start_mono (by omega)
    have h3 := epochDays_year_length_ge (d.year + 1)
    rw [show d.year + 1 + 1 = d.year + 2 from by ring] at h3
    have h4 : epochDays d < epochDays ⟨d.year + 1, 1, 1⟩ := epochDays_next_jan1 d h
    omega

lemma strLtL_cons_same (c : Char) (r1 r2 : List Char) :
    strLtL (c :: r1) (c :: r2) = strLtL r1 r2 := by
  simp [strLtL, lt_irrefl]

lemma digitChar_lt_iff : ∀ a b : Fin 10,
    ((digitChar a.val).val < (digitChar b.val).val ↔ a.val < b.val) := by
  decide

lemma strLtL_digit_cons (a b : Nat) (ha : a < 10) (hb : b < 10) (r1 r2 : List Char) :
    strLtL (digitChar a :: r1) (digitChar b :: r2) =
      if a < b then true else if b < a then false else strLtL r1 r2 := by
  have h1 := digitChar_lt_iff ⟨a, ha⟩ ⟨b, hb⟩
  have h2 := digitChar_lt_iff ⟨b, hb⟩ ⟨a, ha⟩
  simp only at h1 h2
  simp only [strLtL]
  by_cases hab : a < b
  · rw [if_pos (h1.mpr hab), if_pos hab]
  · rw [if_neg (fun hc => hab (h1.mp hc)), if_neg hab]
    by_cases hba : b < a
    · rw [if_pos (h2.mpr hba), if_pos hba]
    · rw [if_neg (fun hc => hba (h2.mp hc)), if_neg hba]

lemma pad4_lt (n1 n2 : Nat) (h1 : n1 ≤ 9999) (h2 : n2 ≤ 9999) (r1 r2 : List Char) :
    strLtL (pad4 n1 ++ r1) (pad4 n2 ++ r2) =
      if n1 < n2 then true else if n2 < n1 then false else strLtL r1 r2 := by
  simp only [pad4, List.cons_append, List.nil_append]
  rw [strLtL_digit_cons _ _ (by omega) (by omega),
      strLtL_digit_cons _ _ (by omega) (by omega),
      strLtL_digit_cons _ _ (by omega) (by omega),
      strLtL_digit_cons _ _ (by omega) (by omega)]
  split_ifs <;> first | rfl | omega

lemma pad2_lt (n1 n2 : Nat) (h1 : n1 ≤ 99) (h2 : n2 ≤ 99) (r1 r2 : List Char) :
    strLtL (pad2 n1 ++ r1) (pad2 n2 ++ r2) =
      if n1 < n2 then true else if n2 < n1 then false else strLtL r1 r2 := by
  simp only [pad2, List.cons_append, List.nil_append]
  rw [strLtL_digit_cons _ _ (by omega) (by omega),
      strLtL_digit_cons _ _ (by omega) (by omega)]
  split_ifs <;> first | rfl | omega

lemma natDecAux_fuel (fuel1 : Nat) : ∀ (fuel2 n : Nat), n < fuel1 → n < fuel2 →
    natDecAux fuel1 n = natDecAux fuel2 n := by
  induction fuel1 with
  | zero =>
    intro fuel2 n h1 h2
    omega
  | succ f1 ih =>
    intro fuel2 n h1 h2
    match fuel2 with
    | 0 => omega
    | f2 + 1 =>
      simp only [natDecAux]
      by_cases h : n < 10
      · simp [h]
      · rw [if_neg h, if_neg h, ih f2 (n / 10) (by omega) (by omega)]

lemma natDec_small (n : Nat) (h : n < 10) : natDec n = [digitChar n] := by
  unfold natDec natDecAux
  simp [h]

lemma natDec_step (n : Nat) (h : 10 ≤ n) : natDec n = natDec (n / 10) ++ [digitChar (n % 10)] := by
  unfold natDec
  rw [show n + 1 = n + 1 from rfl]
  conv =>
    lhs
    rw [show natDecAux (n + 1) n =
      if n < 10 then [digitChar n] else natDecAux n (n / 10) ++ [digitChar (n % 10)] from rfl]
  rw [if_neg (Nat.not_lt.mpr h), natDecAux_fuel n (n / 10 + 1) (n / 10) (by omega) (by omega)]

lemma natDec_eq_pad4 (n : Nat) (h1 : 1000 ≤ n) (h2 : n ≤ 9999) : natDec n = pad4 n := by
  rw [natDec_step n (by omega), natDec_step (n / 10) (by omega),
      natDec_step (n / 10 / 10) (by omega), natDec_small (n / 10 / 10 / 10) (by omega)]
  have e1 : n / 10 / 10 = n / 100 := by omega
  rw [e1]
  have e2 : n / 100 / 10 = n / 1000 := by omega
  rw [e2]
  simp [pad4]

lemma pad2dec_eq_pad2 (n : Nat) (h2 : n ≤ 99) : pad2dec n = pad2 n := by
  unfold pad2dec
  by_cases h : n < 10
  · rw [if_pos h, natDec_small n h]
    have e1 : n / 10 = 0 := by omega
    have e2 : n % 10 = n := by omega
    simp [pad2, e1, e2]
    rfl
  · rw [if_neg h, natDec_step n (by omega), natDec_small (n / 10) (by omega)]
    simp [pad2]

lemma daysInMonth_le31 (y : Int) (m : Nat) (hm : m ≤ 12) : daysInMonth y m ≤ 31 := by
  have hp : daysInMonthB (isLeapYear y) m ≤ 31 :=
    daysInMonthB_le (isLeapYear y) ⟨m, by omega⟩
  simpa [daysInMonth] using hp

lemma dayKey_lt_eq (a b : GoDate) (hva : a.Valid) (hvb : b.Valid)
    (hya : 0 ≤ a.year) (h9a : a.year ≤ 9999) (hyb : 0 ≤ b.year) (h9b : b.year ≤ 9999) :
    goStrLt (dayKey a) (dayKey b) = decide (dateLt a b) := by
  obtain ⟨ha1, ha2, ha3, ha4⟩ := hva
  obtain ⟨hb1, hb2, hb3, hb4⟩ := hvb
  have hda : a.day ≤ 31 := le_trans ha4 (daysInMonth_le31 _ _ ha2)
  have hdb : b.day ≤ 31 := le_trans hb4 (daysInMonth_le31 _ _ hb2)
  show strLtL (pad4 a.year.toNat ++ '-' :: (pad2 a.month ++ '-' :: pad2 a.day))
      (pad4 b.year.toNat ++ '-' :: (pad2 b.month ++ '-' :: pad2 b.day)) = _
  rw [pad4_lt _ _ (by omega) (by omega), strLtL_cons_same,
      pad2_lt _ _ (by omega) (by omega), strLtL_cons_same,
      show pad2 a.day = pad2 a.day ++ [] from (List.append_nil _).symm,
      show pad2 b.day = pad2 b.day ++ [] from (List.append_nil _).symm,
      pad2_lt _ _ (by omega) (by omega)]
  simp only [strLtL]
  split_ifs <;> simp [dateLt] <;> omega

lemma weekKey_lt_eq (a b : GoDate) (hva : a.Valid) (hvb : b.Valid)
    (hya : 1000 ≤ (isoWeek a).1) (h9a : (isoWeek a).1 ≤ 9999)
    (hyb : 1000 ≤ (isoWeek b).1) (h9b : (isoWeek b).1 ≤ 9999) :
    goStrLt (weekKey a) (weekKey b) =
      decide ((isoWeek a).1 < (isoWeek b).1 ∨
        ((isoWeek a).1 = (isoWeek b).1 ∧ (isoWeek a).2 < (isoWeek b).2)) := by
  have hwa := isoWeek_week_bounds a hva
  have hwb := isoWeek_week_bounds b hvb
  have hia : intDec (isoWeek a).1 = pad4 (isoWeek a).1.toNat := by
    rw [intDec, if_neg (by omega), natDec_eq_pad4 _ (by omega) (by omega)]
    congr 1
    omega
  have hib : intDec (isoWeek b).1 = pad4 (isoWeek b).1.toNat := by
    rw [intDec, if_neg (by omega), natDec_eq_pad4 _ (by omega) (by omega)]
    congr 1
    omega
  have hpa : pad2dec (isoWeek a).2.toNat = pad2 (isoWeek a).2.toNat :=
    pad2dec_eq_pad2 _ (by omega)
  have hpb : pad2dec (isoWeek b).2.toNat = pad2 (isoWeek b).2.toNat :=
    pad2dec_eq_pad2 _ (by omega)
  show strLtL (intDec (isoWeek a).1 ++ '-' :: 'W' :: pad2dec (isoWeek a).2.toNat)
      (intDec (isoWeek b).1 ++ '-' :: 'W' :: pad2dec (isoWeek b).2.toNat) = _
  rw [hia, hib, hpa, hpb,
      pad4_lt _ _ (by omega) (by omega), strLtL_cons_same, strLtL_cons_same,
      show pad2 (isoWeek a).2.toNat = pad2 (isoWeek a).2.toNat ++ [] from
        (List.append_nil _).symm,
      show pad2 (isoWeek b).2.toNat = pad2 (isoWeek b).2.toNat ++ [] from
        (List.append_nil _).symm,
      pad2_lt _ _ (by omega) (by omega)]
  simp only [strLtL]
  split_ifs <;> simp <;> omega

lemma instant_epochDays_mono {t1 t2 : GoTime} (h1 : t1.Valid) (h2 : t2.Valid)
    (hle : t1.instant ≤ t2.instant) : epochDays t1.date ≤ epochDays t2.date := by
  obtain ⟨_, hs1, hs1'⟩ := h1
  obtain ⟨_, hs2, hs2'⟩ := h2
  simp only [GoTime.instant] at hle
  omega

lemma not_dateLt_of_epochDays {a b : GoDate} (ha : a.Valid) (hb : b.Valid)
    (h : epochDays a ≤ epochDays b) : ¬ dateLt b a := by
  intro hc
  have := epochDays_strictMono hb ha hc
  omega

lemma dayKey_le_mono {a b : GoDate} (ha : a.Valid) (hb : b.Valid)
    (hya : 0 ≤ a.year) (h9a : a.year ≤ 9999) (hyb : 0 ≤ b.year) (h9b : b.year ≤ 9999)
    (hle : epochDays a ≤ epochDays b) : goStrLe (dayKey a) (dayKey b) = true := by
  unfold goStrLe
  rw [dayKey_lt_eq b a hb ha hyb h9b hya h9a]
  simp [not_dateLt_of_epochDays ha hb hle]

lemma weekKey_le_mono {a b : GoDate} (ha : a.Valid) (hb : b.Valid)
    (hya : 1000 ≤ (isoWeek a).1) (h9a : (isoWeek a).1 ≤ 9999)
    (hyb : 1000 ≤ (isoWeek b).1) (h9b : (isoWeek b).1 ≤ 9999)
    (hle : epochDays a ≤ epochDays b) : goStrLe (weekKey a) (weekKey b) = true := by
  unfold goStrLe
  rw [weekKey_lt_eq b a hb ha hyb h9b hya h9a]
  have hmono := isoWeek_mono ha hb hle
  simp only [Bool.not_eq_true']
  rw [decide_eq_false_iff_not]
  push_neg
  constructor
  · omega
  · intro heq
    omega

/-- One loop iteration of `kpiBuildkiteCombinedAll`, written as independent
conditional updates of the six bucket maps. -/
lemma processBuild_eq (c : GoTime) (acc : CombinedAcc) (b : BuildkiteBuild) :
    processBuild c acc b =
      ⟨if durEligible b then appendAt acc.weekDurations (buildWeek b) (buildDuration b)
          else acc.weekDurations,
       if passedEligible b then bumpAt acc.weekPassed (buildWeek b) else acc.weekPassed,
       if failedEligible b then bumpAt acc.weekFailed (buildWeek b) else acc.weekFailed,
       if durEligible b && inDaily c b then
          appendAt acc.dayDurations (buildDay b) (buildDuration b)
          else acc.dayDurations,
       if passedEligible b && inDaily c b then bumpAt acc.dayPassed (buildDay b)
          else acc.dayPassed,
       if failedEligible b && inDaily c b then bumpAt acc.dayFailed (buildDay b)
          else acc.dayFailed⟩ := by
  unfold processBuild durEligible passedEligible failedEligible inDaily buildWeek buildDay
    buildDuration
  by_cases h1 : isDeploymentPipeline b <;> simp only [h1, Bool.not_true, Bool.not_false,
    Bool.false_and, Bool.true_and, if_true, if_false, Bool.and_false, Bool.and_true]
  case neg => rfl
  by_cases h2 : (parseTime b.finishedAt).2 <;> simp only [h2, Bool.not_true, Bool.not_false,
    Bool.false_and, Bool.true_and, if_true, if_false, Bool.and_false, Bool.and_true]
  case neg => rfl
  by_cases h3 : b.state == "passed"
  · have h4 : (b.state == "failed") = false := by
      rw [beq_iff_eq] at h3
      simp [h3]
    by_cases h5 : (parseTime b.startedAt).2 && timeAfter (parseTime b.finishedAt).1
        (parseTime b.startedAt).1 <;>
      by_cases h6 : timeAfter (parseTime b.finishedAt).1 c <;>
      simp [h3, h4, h5, h6]
  · by_cases h4 : b.state == "failed" <;>
      by_cases h6 : timeAfter (parseTime b.finishedAt).1 c <;>
      simp [h3, h4, h6]

lemma alookup_aset {κ α : Type} [DecidableEq κ] (k : κ) (v : α) (m : List (κ × α)) (w : κ) :
    alookup w (aset k v m) = if k = w then some v else alookup w m := by
  induction m with
  | nil => simp [aset, alookup]
  | cons p rest ih =>
    obtain ⟨k', v'⟩ := p
    simp only [aset]
    by_cases h : k' = k
    · subst h
      simp only [if_pos rfl, alookup]
      by_cases hw : k' = w <;> simp [hw]
    · simp only [if_neg h, alookup, ih]
      by_cases hw : k' = w <;> by_cases hkw : k = w <;> simp_all
  
lemma alookup_appendAt (m : List (String × List ℚ)) (k : String) (x : ℚ) (w : String) :
    alookup w (appendAt m k x) =
      if k = w then some (alookupD k m [] ++ [x]) else alookup w m := by
  simp [appendAt, alookup_aset]

lemma alookupD_bumpAt (m : List (String × Nat)) (k w : String) :
    alookupD w (bumpAt m k) 0 =
      if k = w then alookupD k m 0 + 1 else alookupD w m 0 := by
  unfold bumpAt alookupD
  rw [alookup_aset]
  by_cases h : k = w <;> simp [h]

lemma mem_keysOf_iff {κ α : Type} [DecidableEq κ] (w : κ) (m : List (κ × α)) :
    w ∈ keysOf m ↔ alookup w m ≠ none := by
  induction m with
  | nil => simp [keysOf, alookup]
  | cons p rest ih =>
    obtain ⟨k', v'⟩ := p
    simp only [keysOf, List.map_cons, List.mem_cons, alookup]
    by_cases h : k' = w
    · simp [h]
    · have h2 : w ≠ k' := fun hc => h hc.symm
      simp only [if_neg h]
      rw [or_iff_right h2, show List.map Prod.fst rest = keysOf rest from rfl, ih]

lemma mem_insertStr (x w : String) (l : List String) :
    w ∈ insertStr x l ↔ w = x ∨ w ∈ l := by
  induction l with
  | nil => simp [insertStr]
  | cons y ys ih =>
    simp only [insertStr]
    split_ifs <;> simp_all
    tauto

lemma mem_sortStrings (w : String) (l : List String) :
    w ∈ sortStrings l ↔ w ∈ l := by
  induction l with
  | nil => simp [sortStrings]
  | cons x xs ih =>
    simp only [sortStrings, mem_insertStr, List.mem_cons, ih]

lemma foldl_count_lookup (c : GoTime) (f : CombinedAcc → List (String × Nat))
    (p : BuildkiteBuild → Bool) (key : BuildkiteBuild → String)
    (hstep : ∀ acc b, f (processBuild c acc b) =
      if p b then bumpAt (f acc) (key b) else f acc) :
    ∀ (builds : List BuildkiteBuild) (acc : CombinedAcc) (w : String),
      alookupD w (f (builds.foldl (processBuild c) acc)) 0 =
        alookupD w (f acc) 0 +
          (builds.filter (fun b => p b && (key b == w))).length := by
  intro builds
  induction builds with
  | nil =>
    intro acc w
    simp
  | cons b bs ih =>
    intro acc w
    simp only [List.foldl_cons, List.filter_cons]
    rw [ih, hstep]
    by_cases hp : p b
    · simp only [hp, if_true, Bool.true_and]
      rw [alookupD_bumpAt]
      by_cases hk : key b = w
      · simp [hk]
        omega
      · simp [hk, show (key b == w) = false from by simp [hk]]
    · simp [hp]

lemma foldl_dur_lookup (c : GoTime) (f : CombinedAcc → List (String × List ℚ))
    (p : BuildkiteBuild → Bool) (key : BuildkiteBuild → String)
    (val : BuildkiteBuild → ℚ)
    (hstep : ∀ acc b, f (processBuild c acc b) =
      if p b then appendAt (f acc) (key b) (val b) else f acc) :
    ∀ (builds : List BuildkiteBuild) (acc : CombinedAcc) (w : String),
      alookup w (f (builds.foldl (processBuild c) acc)) =
        (let l := (builds.filter (fun b => p b && (key b == w))).map val
         match alookup w (f acc) with
         | some old => some (old ++ l)
         | none => if l = [] then none else some l) := by
  intro builds
  induction builds with
  | nil =>
    intro acc w
    simp only [List.foldl_nil, List.filter_nil, List.map_nil]
    match h : alookup w (f acc) with
    | some old => simp
    | none => simp
  | cons b bs ih =>
    intro acc w
    simp only [List.foldl_cons, List.filter_cons]
    rw [ih, hstep]
    by_cases hp : p b
    · simp only [hp, if_true, Bool.true_and]
      by_cases hk : key b = w
      · rw [show alookup w (appendAt (f acc) (key b) (val b)) =
            some (alookupD (key b) (f acc) [] ++ [val b]) from by
              rw [alookup_appendAt, if_pos hk]]
        simp only [show (key b == w) = true from by simp [hk], if_true, List.map_cons]
        unfold alookupD
        rw [hk]
        match h : alookup w (f acc) with
        | some old => simp
        | none => simp
      · rw [show alookup w (appendAt (f acc) (key b) (val b)) = alookup w (f acc) from by
              rw [alookup_appendAt, if_neg hk]]
        simp [show (key b == w) = false from by simp [hk]]
    · simp [hp]

lemma step_weekDurations (c : GoTime) (acc : CombinedAcc) (b : BuildkiteBuild) :
    (processBuild c acc b).weekDurations =
      if durEligible b then appendAt acc.weekDurations (buildWeek b) (buildDuration b)
      else acc.weekDurations := by
  rw [processBuild_eq]

lemma step_weekPassed (c : GoTime) (acc : CombinedAcc) (b : BuildkiteBuild) :
    (processBuild c acc b).weekPassed =
      if passedEligible b then bumpAt acc.weekPassed (buildWeek b) else acc.weekPassed := by
  rw [processBuild_eq]

lemma step_weekFailed (c : GoTime) (acc : CombinedAcc) (b : BuildkiteBuild) :
    (processBuild c acc b).weekFailed =
      if failedEligible b then bumpAt acc.weekFailed (buildWeek b) else acc.weekFailed := by
  rw [processBuild_eq]

lemma step_dayDurations (c : GoTime) (acc : CombinedAcc) (b : BuildkiteBuild) :
    (processBuild c acc b).dayDurations =
      if durEligible b && inDaily c b then
        appendAt acc.dayDurations (buildDay b) (buildDuration b)
      else acc.dayDurations := by
  rw [processBuild_eq]

lemma step_dayPassed (c : GoTime) (acc : CombinedAcc) (b : BuildkiteBuild) :
    (processBuild c acc b).dayPassed =
      if passedEligible b && inDaily c b then bumpAt acc.dayPassed (buildDay b)
      else acc.dayPassed := by
  rw [processBuild_eq]

lemma step_dayFailed (c : GoTime) (acc : CombinedAcc) (b : BuildkiteBuild) :
    (processBuild c acc b).dayFailed =
      if failedEligible b && inDaily c b then bumpAt acc.dayFailed (buildDay b)
      else acc.dayFailed := by
  rw [processBuild_eq]

/-- The `weekDurations` map after the whole loop: the bucket of week `w`
holds exactly the durations of the eligible records of that week, in input
order. -/
lemma combined_weekDurations_lookup (c : GoTime) (builds : List BuildkiteBuild) (w : String) :
    alookup w (combinedAcc c builds).weekDurations =
      (if (builds.filter (fun b => durEligible b && (buildWeek b == w))).map
          buildDuration = [] then none
       else some ((builds.filter (fun b => durEligible b && (buildWeek b == w))).map
          buildDuration)) := by
  have h := foldl_dur_lookup c (fun a => a.weekDurations) durEligible buildWeek buildDuration
    (fun acc b => step_weekDurations c acc b) builds emptyAcc w
  simpa [combinedAcc, emptyAcc, alookup] using h

lemma combined_dayDurations_lookup (c : GoTime) (builds : List BuildkiteBuild) (w : String) :
    alookup w (combinedAcc c builds).dayDurations =
      (if (builds.filter
          (fun b => (durEligible b && inDaily c b) && (buildDay b == w))).map
          buildDuration = [] then none
       else some ((builds.filter
          (fun b => (durEligible b && inDaily c b) && (buildDay b == w))).map
          buildDuration)) := by
  have h := foldl_dur_lookup c (fun a => a.dayDurations)
    (fun b => durEligible b && inDaily c b) buildDay buildDuration
    (fun acc b => step_dayDurations c acc b) builds emptyAcc w
  simpa [combinedAcc, emptyAcc, alookup] using h

lemma combined_weekPassed_lookup (c : GoTime) (builds : List BuildkiteBuild) (w : String) :
    alookupD w (combinedAcc c builds).weekPassed 0 =
      (builds.filter (fun b => passedEligible b && (buildWeek b == w))).length := by
  have h := foldl_count_lookup c (fun a => a.weekPassed) passedEligible buildWeek
    (fun acc b => step_weekPassed c acc b) builds emptyAcc w
  simpa [combinedAcc, emptyAcc, alookupD, alookup] using h

lemma combined_weekFailed_lookup (c : GoTime) (builds : List BuildkiteBuild) (w : String) :
    alookupD w (combinedAcc c builds).weekFailed 0 =
      (builds.filter (fun b => failedEligible b && (buildWeek b == w))).length := by
  have h := foldl_count_lookup c (fun a => a.weekFailed) failedEligible buildWeek
    (fun acc b => step_weekFailed c acc b) builds emptyAcc w
  simpa [combinedAcc, emptyAcc, alookupD, alookup] using h

lemma combined_dayPassed_lookup (c : GoTime) (builds : List BuildkiteBuild) (w : String) :
    alookupD w (combinedAcc c builds).dayPassed 0 =
      (builds.filter (fun b => (passedEligible b && inDaily c b) && (buildDay b == w))).length := by
  have h := foldl_count_lookup c (fun a => a.dayPassed)
    (fun b => passedEligible b && inDaily c b) buildDay
    (fun acc b => step_dayPassed c acc b) builds emptyAcc w
  simpa [combinedAcc, emptyAcc, alookupD, alookup] using h

lemma combined_dayFailed_lookup (c : GoTime) (builds : List BuildkiteBuild) (w : String) :
    alookupD w (combinedAcc c builds).dayFailed 0 =
      (builds.filter (fun b => (failedEligible b && inDaily c b) && (buildDay b == w))).length := by
  have h := foldl_count_lookup c (fun a => a.dayFailed)
    (fun b => failedEligible b && inDaily c b) buildDay
    (fun acc b => step_dayFailed c acc b) builds emptyAcc w
  simpa [combinedAcc, emptyAcc, alookupD, alookup] using h

lemma collectPages_all_ok (arrivals : List PageResult)
    (h : ∀ r ∈ arrivals, r.err = none ∧ r.builds ≠ []) (acc : List (Nat × List BuildkiteBuild)) :
    collectPages arrivals acc =
      arrivals.foldl (fun acc r => aset r.page r.builds acc) acc := by
  induction arrivals generalizing acc with
  | nil => rfl
  | cons r rest ih =>
    obtain ⟨he, hb⟩ := h r (List.mem_cons_self r rest)
    simp only [collectPages, he, List.foldl_cons]
    rw [if_neg (by simpa [List.isEmpty_iff] using hb)]
    exact ih (fun r' hr' => h r' (List.mem_cons_of_mem r hr')) _

lemma foldl_aset_lookup (f : Nat → List BuildkiteBuild) (arrivals : List PageResult)
    (hsh : ∀ r ∈ arrivals, r.builds = f r.page) :
    ∀ (acc : List (Nat × List BuildkiteBuild)) (q : Nat),
      alookup q (arrivals.foldl (fun acc r => aset r.page r.builds acc) acc) =
        if q ∈ arrivals.map PageResult.page then some (f q) else alookup q acc := by
  induction arrivals with
  | nil =>
    intro acc q
    simp
  | cons r rest ih =>
    intro acc q
    have hr := hsh r (List.mem_cons_self r rest)
    simp only [List.foldl_cons, List.map_cons, List.mem_cons]
    rw [ih (fun r' hr' => hsh r' (List.mem_cons_of_mem r hr'))]
    by_cases hq : q ∈ rest.map PageResult.page
    · simp [hq]
    · by_cases hpq : q = r.page
      · simp [hq, hpq, alookup_aset, hr]
      · have : ¬ r.page = q := fun hc => hpq hc.symm
        simp [hq, hpq, alookup_aset, this]

lemma foldl_combine (allB : List (Nat × List BuildkiteBuild)) (l : List Nat) :
    ∀ init : List BuildkiteBuild,
      l.foldl (fun combined page =>
        match alookup page allB with
        | some builds => combined ++ builds
        | none => combined) init =
      init ++ l.flatMap (fun page => (alookup page allB).getD []) := by
  induction l with
  | nil =>
    intro init
    simp
  | cons p ps ih =>
    intro init
    simp only [List.foldl_cons, List.flatMap_cons]
    match h : alookup p allB with
    | some builds =>
      rw [ih]
      simp [List.append_assoc]
    | none =>
      rw [ih]
      simp

lemma fetchBuildsParallel_err (f : String → Except String (List BuildkiteBuild)) :
    (fetchBuildsParallel f).2 = none := rfl

lemma fetchBuildsParallel_allFail (f : String → Except String (List BuildkiteBuild))
    (h : ∀ p ∈ buildkitePipelines, ∃ e, f p = .error e) :
    fetchBuildsParallel f = ([], none) := by
  obtain ⟨e1, h1⟩ := h "core-stack-deployment-pipeline" (by simp [buildkitePipelines])
  obtain ⟨e2, h2⟩ := h "core-stack-deployment-pipeline-legacy" (by simp [buildkitePipelines])
  simp [fetchBuildsParallel, buildkitePipelines, h1, h2]

lemma getCachedBuilds_err (st : CacheState) (now : Int) (createdFrom : GoTime)
    (fetchPipe : GoTime → String → Except String (List BuildkiteBuild)) :
    (getCachedBuilds st now createdFrom fetchPipe).1.2 = none := by
  unfold getCachedBuilds
  match st.entry with
  | some (builds, fetchedAt) =>
    simp only []
    split
    · rfl
    · rfl
  | none => rfl

/-- The weekly bucket maps do not depend on the daily cutoff. -/
lemma fold_weekly_cutoff_indep (c1 c2 : GoTime) (builds : List BuildkiteBuild) :
    ∀ acc1 acc2 : CombinedAcc,
      acc1.weekDurations = acc2.weekDurations →
      acc1.weekPassed = acc2.weekPassed →
      acc1.weekFailed = acc2.weekFailed →
      (builds.foldl (processBuild c1) acc1).weekDurations =
          (builds.foldl (processBuild c2) acc2).weekDurations ∧
        (builds.foldl (processBuild c1) acc1).weekPassed =
          (builds.foldl (processBuild c2) acc2).weekPassed ∧
        (builds.foldl (processBuild c1) acc1).weekFailed =
          (builds.foldl (processBuild c2) acc2).weekFailed := by
  induction builds with
  | nil =>
    intro acc1 acc2 h1 h2 h3
    exact ⟨h1, h2, h3⟩
  | cons b bs ih =>
    intro acc1 acc2 h1 h2 h3
    simp only [List.foldl_cons]
    refine ih _ _ ?_ ?_ ?_
    · rw [step_weekDurations, step_weekDurations, h1]
    · rw [step_weekPassed, step_weekPassed, h2]
    · rw [step_weekFailed, step_weekFailed, h3]

lemma flatMap_congr {α β : Type} (l : List α) (f g : α → List β)
    (h : ∀ a ∈ l, f a = g a) : l.flatMap f = l.flatMap g := by
  induction l with
  | nil => rfl
  | cons x xs ih =>
    simp only [List.flatMap_cons]
    rw [h x (List.mem_cons_self x xs), ih (fun a ha => h a (List.mem_cons_of_mem x ha))]

lemma getCachedBuilds_miss (st : CacheState) (now : Int) (createdFrom : GoTime)
    (fetchPipe : GoTime → String → Except String (List BuildkiteBuild))
    (hmiss : cacheMiss st now)
    (hfail : ∀ p ∈ buildkitePipelines, ∃ e, fetchPipe createdFrom p = .error e) :
    getCachedBuilds st now createdFrom fetchPipe = (([], none), ⟨some ([], now)⟩) := by
  have hf := fetchBuildsParallel_allFail (fetchPipe createdFrom) hfail
  unfold getCachedBuilds
  unfold cacheMiss at hmiss
  match hst : st.entry with
  | none => simp [hf]
  | some (bs, t0) =>
    rw [hst] at hmiss
    simp [hf, hmiss]

/-- Claim C2 counterexample: with an empty cache and a fetcher failing on
every pipeline and page, the handler responds `ok` with empty series (and
caches the empty list) — not a gateway error. -/
theorem C2_counterexample :
    kpiBuildkiteCombinedAll true [] ⟨none⟩ 0 scnNow scnThirtyDaysAgo
        (fun _ _ => .error "connection refused") =
      (HandlerResponse.ok ⟨⟨[], []⟩, ⟨[], [], [], []⟩⟩ ⟨⟨[], []⟩, ⟨[], [], [], []⟩⟩,
       ⟨some ([], 0)⟩) := by
  rfl

/-- Claim C2 (amended): if every pipeline fetch fails and the cache is
empty, `fetchBuildsParallel` returns a nil error, so the metrics request
returns a success response with empty series rather than a gateway
error. -/
theorem C2_amended (missing : List String) (now : Int) (t3m t30 : GoTime)
    (fetchPipe : GoTime → String → Except String (List BuildkiteBuild))
    (hfail : ∀ p ∈ buildkitePipelines, ∃ e, fetchPipe t3m p = .error e) :
    (kpiBuildkiteCombinedAll true missing ⟨none⟩ now t3m t30 fetchPipe).1 =
      HandlerResponse.ok ⟨⟨[], []⟩, ⟨[], [], [], []⟩⟩ ⟨⟨[], []⟩, ⟨[], [], [], []⟩⟩ := by
  have hm := getCachedBuilds_miss ⟨none⟩ now t3m fetchPipe trivial hfail
  unfold kpiBuildkiteCombinedAll
  rw [hm]
  rfl

/-- Claim C2 (amended) witness. -/
theorem C2_amended_witness :
    (kpiBuildkiteCombinedAll true ["BUILDKITE_TOKEN"] ⟨none⟩ 17 scnNow scnThirtyDaysAgo
        (fun _ _ => .error "dial tcp: connection refused")).1 =
      HandlerResponse.ok ⟨⟨[], []⟩, ⟨[], [], [], []⟩⟩ ⟨⟨[], []⟩, ⟨[], [], [], []⟩⟩ :=
  C2_amended ["BUILDKITE_TOKEN"] 17 scnNow scnThirtyDaysAgo _
    (fun _p _ => ⟨"dial tcp: connection refused", rfl⟩)

/-- Claim C9: on a cache miss with every pipeline fetch failing,
`fetchBuildsParallel` yields an empty list and nil error, the cache stores
that empty list stamped `now`, and every call within the 5-minute TTL is
served the empty list from the cache — with identical results for any
`createdFrom` and any fetcher, i.e. without refetching. -/
theorem C9_empty_cached_on_total_failure (st : CacheState) (now : Int) (createdFrom : GoTime)
    (fetchPipe : GoTime → String → Except String (List BuildkiteBuild))
    (hmiss : cacheMiss st now)
    (hfail : ∀ p ∈ buildkitePipelines, ∃ e, fetchPipe createdFrom p = .error e) :
    getCachedBuilds st now createdFrom fetchPipe = (([], none), ⟨some ([], now)⟩) ∧
    ∀ (now2 : Int) (cf2 : GoTime)
      (f2 : GoTime → String → Except String (List BuildkiteBuild)),
      now2 - now < buildkiteCacheTTL →
      getCachedBuilds ⟨some ([], now)⟩ now2 cf2 f2 = (([], none), ⟨some ([], now)⟩) := by
  refine ⟨getCachedBuilds_miss st now createdFrom fetchPipe hmiss hfail, ?_⟩
  intro now2 cf2 f2 hfresh
  unfold getCachedBuilds
  simp [hfresh]

/-- Claim C9 witness. -/
theorem C9_empty_cached_on_total_failure_witness :
    getCachedBuilds ⟨none⟩ 100 scnNow (fun _ _ => .error "boom") =
        (([], none), ⟨some ([], 100)⟩) ∧
    ∀ (now2 : Int) (cf2 : GoTime)
      (f2 : GoTime → String → Except String (List BuildkiteBuild)),
      now2 - 100 < buildkiteCacheTTL →
      getCachedBuilds ⟨some ([], 100)⟩ now2 cf2 f2 = (([], none), ⟨some ([], 100)⟩) :=
  C9_empty_cached_on_total_failure ⟨none⟩ 100 scnNow _ trivial
    (fun _p _ => ⟨"boom", rfl⟩)

/-- Claim C10: on a cache hit the result ignores `createdFrom` (and the
fetcher) entirely: any two calls with a fresh cache return the identical
cached list and leave the cache unchanged. -/
theorem C10_hit_ignores_createdFrom (bs : List BuildkiteBuild) (t0 now : Int)
    (cf1 cf2 : GoTime)
    (f1 f2 : GoTime → String → Except String (List BuildkiteBuild))
    (hfresh : now - t0 < buildkiteCacheTTL) :
    getCachedBuilds ⟨some (bs, t0)⟩ now cf1 f1 = ((bs, none), ⟨some (bs, t0)⟩) ∧
    getCachedBuilds ⟨some (bs, t0)⟩ now cf2 f2 = ((bs, none), ⟨some (bs, t0)⟩) := by
  unfold getCachedBuilds
  simp [hfresh]

/-- Claim C10 witness. -/
theorem C10_hit_ignores_createdFrom_witness :
    getCachedBuilds ⟨some ([pgBuildA], 50)⟩ 200 scnNow
        (fun _ _ => .ok [pgBuildB]) = (([pgBuildA], none), ⟨some ([pgBuildA], 50)⟩) ∧
    getCachedBuilds ⟨some ([pgBuildA], 50)⟩ 200 scnThirtyDaysAgo
        (fun _ _ => .error "x") = (([pgBuildA], none), ⟨some ([pgBuildA], 50)⟩) :=
  C10_hit_ignores_createdFrom [pgBuildA] 50 200 scnNow scnThirtyDaysAgo _ _ (by decide)

/-- Claim C4 counterexample: page 3 returns empty and its result arrives
first; the non-empty page 2 result arrives afterwards (it was already in
flight) but the collection loop has already hit `break`, so page 2's
records are NOT in the merged output. -/
theorem C4_counterexample :
    combinePages 3 [pgBuildA] [⟨3, [], none⟩, ⟨2, [pgBuildB], none⟩] = [pgBuildA] ∧
    pgBuildB ∉ combinePages 3 [pgBuildA] [⟨3, [], none⟩, ⟨2, [pgBuildB], none⟩] := by
  decide

/-- Claim C4 (amended): when an empty page result arrives, the collection
loop stops immediately (`break`), so every result still unread — including
non-empty results of in-flight later pages — is discarded, not accepted. -/
theorem C4_empty_page_discards_rest (r : PageResult) (rest : List PageResult)
    (acc : List (Nat × List BuildkiteBuild)) (herr : r.err = none)
    (hempty : r.builds = []) :
    collectPages (r :: rest) acc = acc := by
  simp [collectPages, herr, hempty]

/-- Claim C4 (amended) witness. -/
theorem C4_empty_page_discards_rest_witness :
    collectPages [⟨3, [], none⟩, ⟨2, [pgBuildB], none⟩] [(1, [pgBuildA])] =
      [(1, [pgBuildA])] :=
  C4_empty_page_discards_rest ⟨3, [], none⟩ [⟨2, [pgBuildB], none⟩] [(1, [pgBuildA])] rfl rfl

/-- Claim C5 counterexample: with page 2 empty and page 3 non-empty, the
merged list depends on fate: here it is `[pgBuildA]`, not the sequential
page-order concatenation `[pgBuildA] ++ [] ++ [pgBuildC]`. -/
theorem C5_counterexample :
    combinePages 3 [pgBuildA] [⟨2, [], none⟩, ⟨3, [pgBuildC], none⟩] = [pgBuildA] ∧
    combinePages 3 [pgBuildA] [⟨2, [], none⟩, ⟨3, [pgBuildC], none⟩] ≠
      [pgBuildA] ++ [] ++ [pgBuildC] := by
  decide

/-- Claim C5 (amended): provided every page's result is non-empty and
error-free, reassembly keyed by page number makes the merged list equal
the sequential page-order concatenation for EVERY arrival order. -/
theorem C5_reassembly_deterministic (totalPages : Nat) (first : List BuildkiteBuild)
    (f : Nat → List BuildkiteBuild) (arrivals : List PageResult)
    (htp : 1 ≤ totalPages)
    (hperm : arrivals.Perm
      ((List.range' 2 (totalPages - 1)).map (fun p => ⟨p, f p, none⟩)))
    (hne : ∀ p ∈ List.range' 2 (totalPages - 1), f p ≠ []) :
    combinePages totalPages first arrivals =
      first ++ (List.range' 2 (totalPages - 1)).flatMap f := by
  have hshape : ∀ r ∈ arrivals, r.builds = f r.page := by
    intro r hr
    obtain ⟨p, hp, hrp⟩ := List.mem_map.mp (hperm.mem_iff.mp hr)
    rw [← hrp]
  have hok : ∀ r ∈ arrivals, r.err = none ∧ r.builds ≠ [] := by
    intro r hr
    obtain ⟨p, hp, hrp⟩ := List.mem_map.mp (hperm.mem_iff.mp hr)
    rw [← hrp]
    exact ⟨rfl, hne p hp⟩
  have hpages : ∀ q, q ∈ arrivals.map PageResult.page ↔
      q ∈ List.range' 2 (totalPages - 1) := by
    intro q
    rw [List.Perm.mem_iff (hperm.map PageResult.page)]
    simp [List.map_map, Function.comp]
  obtain ⟨n, rfl⟩ : ∃ n, totalPages = n + 1 := ⟨totalPages - 1, by omega⟩
  simp only [Nat.add_sub_cancel] at hpages hne ⊢
  unfold combinePages
  rw [collectPages_all_ok arrivals hok, foldl_combine, List.nil_append, List.range'_succ,
    List.flatMap_cons]
  have hlook := foldl_aset_lookup f arrivals hshape [(1, first)]
  have h1 : alookup 1 (arrivals.foldl (fun acc r => aset r.page r.builds acc)
      [(1, first)]) = some first := by
    rw [hlook 1]
    have : (1 : Nat) ∉ List.range' 2 n := by
      intro hc
      have := List.mem_range'_1.mp hc
      omega
    rw [if_neg (fun hc => this ((hpages 1).mp hc))]
    simp [alookup]
  rw [h1]
  simp only [Option.getD_some]
  congr 1
  apply flatMap_congr
  intro p hp
  rw [hlook p, if_pos ((hpages p).mpr hp)]
  simp

/-- Claim C5 (amended) witness: three pages delivered out of order. -/
theorem C5_reassembly_deterministic_witness :
    combinePages 3 [pgBuildA]
        [⟨3, [pgBuildC], none⟩, ⟨2, [pgBuildB], none⟩] =
      [pgBuildA] ++ (List.range' 2 (3 - 1)).flatMap
        (fun p => if p = 2 then [pgBuildB] else [pgBuildC]) :=
  C5_reassembly_deterministic 3 [pgBuildA]
    (fun p => if p = 2 then [pgBuildB] else [pgBuildC])
    [⟨3, [pgBuildC], none⟩, ⟨2, [pgBuildB], none⟩]
    (by decide) (by decide) (by decide)

lemma bucketSeriesOf_avg (m : List (String × List ℚ)) :
    (bucketSeriesOf m).avgDurationMins = (bucketSeriesOf m).keys.map (fun w =>
      if 0 < (alookupD w m []).length then
        (alookupD w m []).sum / ((alookupD w m []).length : ℚ)
      else 0) := rfl

lemma failureRateSeriesOf_rate (mp mf : List (String × Nat)) :
    (failureRateSeriesOf mp mf).failureRate = (failureRateSeriesOf mp mf).keys.map (fun w =>
      if 0 < alookupD w mp 0 + alookupD w mf 0 then
        (((alookupD w mf 0 : Nat) : ℚ) /
          (((alookupD w mp 0 : Nat) : ℚ) + ((alookupD w mf 0 : Nat) : ℚ))) * 100
      else 0) := rfl

lemma subMinutes_same_date (d : GoDate) (s1 s2 : Int) :
    subMinutes ⟨d, s1⟩ ⟨d, s2⟩ = ((s1 - s2 : Int) : ℚ) / 60 := by
  simp only [subMinutes, GoTime.instant]
  norm_num

/-- Claim C1 counterexample: on the spec's two-week scenario the weekly
response's avg-duration series has a single entry (only week 2024-W23 has
durations), so it cannot equal the claimed two-entry series `[15.0, 0]`,
and its key list differs from the failure-rate key list. -/
theorem C1_counterexample :
    (weeklyPayload (combinedAcc scnCutoff scnBuilds)).deploymentTime.avgDurationMins ≠
        ([15, 0] : List ℚ) ∧
    (weeklyPayload (combinedAcc scnCutoff scnBuilds)).deploymentTime.keys ≠
      (weeklyPayload (combinedAcc scnCutoff scnBuilds)).failureRate.keys := by
  constructor
  · intro hc
    have h := congrArg List.length hc
    rw [show (weeklyPayload (combinedAcc scnCutoff scnBuilds)).deploymentTime.avgDurationMins
        = _ from bucketSeriesOf_avg (combinedAcc scnCutoff scnBuilds).weekDurations,
      List.length_map] at h
    rw [show (bucketSeriesOf (combinedAcc scnCutoff scnBuilds).weekDurations).keys.length = 1
        from by decide] at h
    simp at h
  · decide

/-- Claim C1 (amended): the weekly aggregation emits the avg-duration
series over the sorted weeks having at least one valid duration, and the
failure-rate/passed/failed series (mutually aligned) over the sorted union
of weeks with at least one passed or failed deployment record; on the
two-week scenario: deployment-time weeks `[2024-W23]` with avg `[15]`,
failure-rate weeks `[2024-W23, 2024-W24]` with rates `[0, 100]`, passed
`[2, 0]`, failed `[0, 1]`. -/
theorem C1_amended :
    (∀ (c : GoTime) (builds : List BuildkiteBuild),
      (weeklyPayload (combinedAcc c builds)).deploymentTime.avgDurationMins.length =
          (weeklyPayload (combinedAcc c builds)).deploymentTime.keys.length ∧
        (weeklyPayload (combinedAcc c builds)).failureRate.failureRate.length =
          (weeklyPayload (combinedAcc c builds)).failureRate.keys.length ∧
        (weeklyPayload (combinedAcc c builds)).failureRate.passed.length =
          (weeklyPayload (combinedAcc c builds)).failureRate.keys.length ∧
        (weeklyPayload (combinedAcc c builds)).failureRate.failed.length =
          (weeklyPayload (combinedAcc c builds)).failureRate.keys.length) ∧
    weeklyPayload (combinedAcc scnCutoff scnBuilds) =
      ⟨⟨["2024-W23"], [15]⟩,
       ⟨["2024-W23", "2024-W24"], [0, 100], [2, 0], [0, 1]⟩⟩ := by
  constructor
  · intro c builds
    refine ⟨?_, ?_, ?_, ?_⟩ <;>
      simp [weeklyPayload, bucketSeriesOf, failureRateSeriesOf]
  · have hk : (bucketSeriesOf (combinedAcc scnCutoff scnBuilds).weekDurations).keys =
        ["2024-W23"] := by decide
    have ha : (bucketSeriesOf (combinedAcc scnCutoff scnBuilds).weekDurations).avgDurationMins
        = [15] := by
      rw [bucketSeriesOf_avg, hk]
      simp only [List.map_cons, List.map_nil]
      have hd : alookupD "2024-W23" (combinedAcc scnCutoff scnBuilds).weekDurations [] =
          [subMinutes ⟨⟨2024, 6, 3⟩, 36600⟩ ⟨⟨2024, 6, 3⟩, 36000⟩,
           subMinutes ⟨⟨2024, 6, 3⟩, 37200⟩ ⟨⟨2024, 6, 3⟩, 36000⟩] := rfl
      rw [hd, subMinutes_same_date, subMinutes_same_date]
      norm_num
    have h1 : bucketSeriesOf (combinedAcc scnCutoff scnBuilds).weekDurations =
        ⟨["2024-W23"], [15]⟩ := by
      rw [show bucketSeriesOf (combinedAcc scnCutoff scnBuilds).weekDurations =
          ⟨(bucketSeriesOf (combinedAcc scnCutoff scnBuilds).weekDurations).keys,
           (bucketSeriesOf (combinedAcc scnCutoff scnBuilds).weekDurations).avgDurationMins⟩
          from rfl, hk, ha]
    have hk2 : (failureRateSeriesOf (combinedAcc scnCutoff scnBuilds).weekPassed
        (combinedAcc scnCutoff scnBuilds).weekFailed).keys =
        ["2024-W23", "2024-W24"] := by decide
    have hr : (failureRateSeriesOf (combinedAcc scnCutoff scnBuilds).weekPassed
        (combinedAcc scnCutoff scnBuilds).weekFailed).failureRate = [0, 100] := by
      rw [failureRateSeriesOf_rate, hk2]
      simp only [List.map_cons, List.map_nil]
      rw [show alookupD "2024-W23" (combinedAcc scnCutoff scnBuilds).weekPassed 0 = 2 from
            by decide,
          show alookupD "2024-W23" (combinedAcc scnCutoff scnBuilds).weekFailed 0 = 0 from
            by decide,
          show alookupD "2024-W24" (combinedAcc scnCutoff scnBuilds).weekPassed 0 = 0 from
            by decide,
          show alookupD "2024-W24" (combinedAcc scnCutoff scnBuilds).weekFailed 0 = 1 from
            by decide]
      norm_num
    have hp : (failureRateSeriesOf (combinedAcc scnCutoff scnBuilds).weekPassed
        (combinedAcc scnCutoff scnBuilds).weekFailed).passed = [2, 0] := by decide
    have hf : (failureRateSeriesOf (combinedAcc scnCutoff scnBuilds).weekPassed
        (combinedAcc scnCutoff scnBuilds).weekFailed).failed = [0, 1] := by decide
    have h2 : failureRateSeriesOf (combinedAcc scnCutoff scnBuilds).weekPassed
        (combinedAcc scnCutoff scnBuilds).weekFailed =
        ⟨["2024-W23", "2024-W24"], [0, 100], [2, 0], [0, 1]⟩ := by
      rw [show failureRateSeriesOf (combinedAcc scnCutoff scnBuilds).weekPassed
          (combinedAcc scnCutoff scnBuilds).weekFailed =
          ⟨(failureRateSeriesOf (combinedAcc scnCutoff scnBuilds).weekPassed
              (combinedAcc scnCutoff scnBuilds).weekFailed).keys,
           (failureRateSeriesOf (combinedAcc scnCutoff scnBuilds).weekPassed
              (combinedAcc scnCutoff scnBuilds).weekFailed).failureRate,
           (failureRateSeriesOf (combinedAcc scnCutoff scnBuilds).weekPassed
              (combinedAcc scnCutoff scnBuilds).weekFailed).passed,
           (failureRateSeriesOf (combinedAcc scnCutoff scnBuilds).weekPassed
              (combinedAcc scnCutoff scnBuilds).weekFailed).failed⟩ from rfl,
        hk2, hr, hp, hf]
    show (⟨bucketSeriesOf (combinedAcc scnCutoff scnBuilds).weekDurations,
           failureRateSeriesOf (combinedAcc scnCutoff scnBuilds).weekPassed
             (combinedAcc scnCutoff scnBuilds).weekFailed⟩ : CombinedPayload) = _
    rw [h1, h2]

/-- Claim C3 counterexample: a passed, valid-duration build of the fetched
non-legacy pipeline is excluded by `isDeploymentPipeline`, so the emitted
average (10) differs from the mean over all passed valid-duration records
of the week (15) described by the claim. -/
theorem C3_counterexample :
    (bucketSeriesOf (combinedAcc scnCutoff scnMixedBuilds).weekDurations).keys =
        ["2024-W23"] ∧
    (bucketSeriesOf (combinedAcc scnCutoff scnMixedBuilds).weekDurations).avgDurationMins =
        [10] ∧
    specC3MeanAt scnMixedBuilds "2024-W23" = 15 ∧
    (10 : ℚ) ≠ 15 := by
  refine ⟨by decide, ?_, ?_, by norm_num⟩
  · rw [bucketSeriesOf_avg,
      show (bucketSeriesOf (combinedAcc scnCutoff scnMixedBuilds).weekDurations).keys =
        ["2024-W23"] from by decide]
    simp only [List.map_cons, List.map_nil]
    have hd : alookupD "2024-W23" (combinedAcc scnCutoff scnMixedBuilds).weekDurations [] =
        [subMinutes ⟨⟨2024, 6, 3⟩, 36600⟩ ⟨⟨2024, 6, 3⟩, 36000⟩] := rfl
    rw [hd, subMinutes_same_date]
    norm_num
  · unfold specC3MeanAt
    rw [show (scnMixedBuilds.filter
        (fun b => specC3DurFilter b && (buildWeek b == "2024-W23"))).map buildDuration =
      [subMinutes ⟨⟨2024, 6, 3⟩, 36600⟩ ⟨⟨2024, 6, 3⟩, 36000⟩,
       subMinutes ⟨⟨2024, 6, 3⟩, 37200⟩ ⟨⟨2024, 6, 3⟩, 36000⟩] from rfl]
    unfold meanQ
    rw [subMinutes_same_date, subMinutes_same_date]
    norm_num

/-- Claim C3 (amended): for every emitted week key, the avg-duration value
equals the arithmetic mean of `(finishedAt - startedAt)` in minutes over
exactly the records that pass `isDeploymentPipeline`, are `passed`, have
parseable timestamps with `finishedAt` strictly after `startedAt`, and
whose `finishedAt` falls in that ISO week; and a week key is emitted iff at
least one such record exists. -/
theorem C3_avg_is_mean_of_filtered (c : GoTime) (builds : List BuildkiteBuild) :
    (weeklyPayload (combinedAcc c builds)).deploymentTime.avgDurationMins =
      (weeklyPayload (combinedAcc c builds)).deploymentTime.keys.map (fun w =>
        meanQ ((builds.filter (fun b => durEligible b && (buildWeek b == w))).map
          buildDuration)) ∧
    ∀ w, w ∈ (weeklyPayload (combinedAcc c builds)).deploymentTime.keys ↔
      builds.filter (fun b => durEligible b && (buildWeek b == w)) ≠ [] := by
  have hkeys : ∀ w : String,
      w ∈ (weeklyPayload (combinedAcc c builds)).deploymentTime.keys ↔
      builds.filter (fun b => durEligible b && (buildWeek b == w)) ≠ [] := by
    intro w
    show w ∈ sortStrings (keysOf (combinedAcc c builds).weekDurations) ↔ _
    rw [mem_sortStrings, mem_keysOf_iff, combined_weekDurations_lookup]
    by_cases hnil : (builds.filter (fun b => durEligible b && (buildWeek b == w))).map
        buildDuration = []
    · rw [if_pos hnil]
      rw [List.map_eq_nil_iff] at hnil
      simp [hnil]
    · rw [if_neg hnil]
      rw [List.map_eq_nil_iff] at hnil
      simp [hnil]
  refine ⟨?_, hkeys⟩
  rw [show (weeklyPayload (combinedAcc c builds)).deploymentTime.avgDurationMins =
      (bucketSeriesOf (combinedAcc c builds).weekDurations).avgDurationMins from rfl,
    bucketSeriesOf_avg]
  apply List.map_congr_left
  intro w hw
  have hfil := (hkeys w).mp (by exact hw)
  have hmapne : (builds.filter (fun b => durEligible b && (buildWeek b == w))).map
      buildDuration ≠ [] := by
    simpa [List.map_eq_nil_iff] using hfil
  have hlk := combined_weekDurations_lookup c builds w
  rw [if_neg hmapne] at hlk
  unfold alookupD
  rw [hlk]
  simp only [Option.getD_some]
  rw [if_pos (List.length_pos.mpr hmapne)]
  rfl

/-- Claim C3 (amended) witness. -/
theorem C3_avg_is_mean_of_filtered_witness :
    (weeklyPayload (combinedAcc scnCutoff scnMixedBuilds)).deploymentTime.avgDurationMins =
      (weeklyPayload (combinedAcc scnCutoff scnMixedBuilds)).deploymentTime.keys.map
        (fun w => meanQ ((scnMixedBuilds.filter
          (fun b => durEligible b && (buildWeek b == w))).map buildDuration)) ∧
    ∀ w, w ∈ (weeklyPayload (combinedAcc scnCutoff scnMixedBuilds)).deploymentTime.keys ↔
      scnMixedBuilds.filter (fun b => durEligible b && (buildWeek b == w)) ≠ [] :=
  C3_avg_is_mean_of_filtered scnCutoff scnMixedBuilds

/-- Claim C6 counterexample: in `kpiBuildkiteDeploymentTime` (buildkite.go)
a passed record whose `finishedAt` EQUALS its `startedAt` is not skipped —
its (zero) duration is recorded in the week's duration statistics, because
the code only excludes `finishedAt.Before(startedAt)`. -/
theorem C6_counterexample :
    scnEqualTimesBuild.state = "passed" ∧
    scnEqualTimesBuild.startedAt = scnEqualTimesBuild.finishedAt ∧
    (alookupD "2024-W23" (deploymentTimeWeekDurations [scnEqualTimesBuild]) []).length
      = 1 := by
  refine ⟨rfl, rfl, ?_⟩
  decide

/-- Claim C6 (amended): in the combined aggregator
(`kpiBuildkiteCombinedAll`), for a deployment-pipeline record with state
`passed` and parseable `finishedAt`, the duration is recorded iff
`startedAt` parses and `finishedAt` is strictly after `startedAt` (equal
timestamps excluded), and the record is counted in its week's passed count
either way.  (The older `kpiBuildkiteDeploymentTime` endpoint instead
keeps records with `finishedAt` equal to `startedAt`.) -/
theorem C6_strict_duration_eligibility (c : GoTime) (acc : CombinedAcc)
    (b : BuildkiteBuild) (hdep : isDeploymentPipeline b = true)
    (hfin : (parseTime b.finishedAt).2 = true) (hpassed : b.state = "passed") :
    ((processBuild c acc b).weekDurations =
      if (parseTime b.startedAt).2 &&
          timeAfter (parseTime b.finishedAt).1 (parseTime b.startedAt).1 then
        appendAt acc.weekDurations (buildWeek b) (buildDuration b)
      else acc.weekDurations) ∧
    alookupD (buildWeek b) (processBuild c acc b).weekPassed 0 =
      alookupD (buildWeek b) acc.weekPassed 0 + 1 := by
  constructor
  · rw [step_weekDurations]
    unfold durEligible
    simp [hdep, hfin, hpassed]
  · rw [step_weekPassed]
    unfold passedEligible
    simp [hdep, hfin, hpassed, alookupD_bumpAt]

/-- Claim C6 (amended) witness: a passed build with equal start and finish
bumps the passed count but records no duration. -/
theorem C6_strict_duration_eligibility_witness :
    ((processBuild scnCutoff emptyAcc scnEqualTimesBuild).weekDurations =
      if (parseTime scnEqualTimesBuild.startedAt).2 &&
          timeAfter (parseTime scnEqualTimesBuild.finishedAt).1
            (parseTime scnEqualTimesBuild.startedAt).1 then
        appendAt emptyAcc.weekDurations (buildWeek scnEqualTimesBuild)
          (buildDuration scnEqualTimesBuild)
      else emptyAcc.weekDurations) ∧
    alookupD (buildWeek scnEqualTimesBuild)
        (processBuild scnCutoff emptyAcc scnEqualTimesBuild).weekPassed 0 =
      alookupD (buildWeek scnEqualTimesBuild) emptyAcc.weekPassed 0 + 1 :=
  C6_strict_duration_eligibility scnCutoff emptyAcc scnEqualTimesBuild
    (by decide) (by decide) rfl

set_option maxRecDepth 40000 in
/-- Claim C7: the daily series is computed from the same single fetched
record set as the weekly series (the handler aggregates one
`getCachedBuilds` result for both halves of the response); the weekly
buckets are independent of the 30-day cutoff; the daily passed/failed
buckets count exactly the deployment records with parseable `finishedAt`
lying strictly inside the trailing-30-day window
(`finishedAt.After(thirtyDaysAgo)`); and in the concrete scenario a 45-day
old record is in the weekly but not the daily buckets while a 10-day-old
record is in both. -/
theorem C7_daily_trailing_window_same_set :
    (∀ (missing : List String) (st : CacheState) (now : Int) (t3m t30 : GoTime)
        (fetchPipe : GoTime → String → Except String (List BuildkiteBuild)),
      (kpiBuildkiteCombinedAll true missing st now t3m t30 fetchPipe).1 =
        HandlerResponse.ok
          (weeklyPayload (combinedAcc t30 (getCachedBuilds st now t3m fetchPipe).1.1))
          (dailyPayload (combinedAcc t30 (getCachedBuilds st now t3m fetchPipe).1.1))) ∧
    (∀ (c1 c2 : GoTime) (builds : List BuildkiteBuild),
      (combinedAcc c1 builds).weekDurations = (combinedAcc c2 builds).weekDurations ∧
      (combinedAcc c1 builds).weekPassed = (combinedAcc c2 builds).weekPassed ∧
      (combinedAcc c1 builds).weekFailed = (combinedAcc c2 builds).weekFailed) ∧
    (∀ (c : GoTime) (builds : List BuildkiteBuild) (w : String),
      alookupD w (combinedAcc c builds).dayPassed 0 =
        (builds.filter (fun b =>
          (passedEligible b && inDaily c b) && (buildDay b == w))).length ∧
      alookupD w (combinedAcc c builds).dayFailed 0 =
        (builds.filter (fun b =>
          (failedEligible b && inDaily c b) && (buildDay b == w))).length) ∧
    (alookupD (buildWeek scnBuild45)
        (combinedAcc scnThirtyDaysAgo [scnBuild45, scnBuild10]).weekPassed 0 = 1 ∧
      alookupD (buildDay scnBuild45)
        (combinedAcc scnThirtyDaysAgo [scnBuild45, scnBuild10]).dayPassed 0 = 0 ∧
      alookupD (buildWeek scnBuild10)
        (combinedAcc scnThirtyDaysAgo [scnBuild45, scnBuild10]).weekPassed 0 = 1 ∧
      alookupD (buildDay scnBuild10)
        (combinedAcc scnThirtyDaysAgo [scnBuild45, scnBuild10]).dayPassed 0 = 1) := by
  refine ⟨?_, ?_, ?_, by decide, by decide, by decide, by decide⟩
  · intro missing st now t3m t30 fetchPipe
    have he := getCachedBuilds_err st now t3m fetchPipe
    unfold kpiBuildkiteCombinedAll
    simp only [Bool.not_true, Bool.false_eq_true, if_false]
    match hr : (getCachedBuilds st now t3m fetchPipe).1.2 with
    | some e => exact absurd (hr ▸ he) (by simp)
    | none => rfl
  · intro c1 c2 builds
    exact fold_weekly_cutoff_indep c1 c2 builds emptyAcc emptyAcc rfl rfl rfl
  · intro c builds w
    exact ⟨combined_dayPassed_lookup c builds w, combined_dayFailed_lookup c builds w⟩

/-- Claim C8: for timestamps in the four-digit-year era (calendar years
1001..9998, covering every reachable CI timestamp), the bucket keys are
monotone under Go's byte-wise string order: `t1 ≤ t2` implies
`dayKey t1 ≤ dayKey t2` and `weekKey t1 ≤ weekKey t2`, so sorting the
`YYYY-MM-DD` / `YYYY-Www` keys lexicographically coincides with
chronological order. -/
theorem C8_bucket_keys_monotone (t1 t2 : GoTime) (h1 : t1.Valid) (h2 : t2.Valid)
    (hy1 : 1001 ≤ t1.date.year) (hy1' : t1.date.year ≤ 9998)
    (hy2 : 1001 ≤ t2.date.year) (hy2' : t2.date.year ≤ 9998)
    (hle : t1.instant ≤ t2.instant) :
    goStrLe (dayKey t1.date) (dayKey t2.date) = true ∧
    goStrLe (weekKey t1.date) (weekKey t2.date) = true := by
  have hd := instant_epochDays_mono h1 h2 hle
  have hv1 := h1.1
  have hv2 := h2.1
  constructor
  · exact dayKey_le_mono hv1 hv2 (by omega) (by omega) (by omega) (by omega) hd
  · have hn1 := isoWeek_year_near t1.date hv1
    have hn2 := isoWeek_year_near t2.date hv2
    exact weekKey_le_mono hv1 hv2 (by omega) (by omega) (by omega) (by omega) hd

/-- Claim C8 witness: a same-week pair and a cross-week pair. -/
theorem C8_bucket_keys_monotone_witness :
    (goStrLe (dayKey (⟨⟨2024, 6, 3⟩, 36000⟩ : GoTime).date)
        (dayKey (⟨⟨2024, 6, 10⟩, 0⟩ : GoTime).date) = true ∧
      goStrLe (weekKey (⟨⟨2024, 6, 3⟩, 36000⟩ : GoTime).date)
        (weekKey (⟨⟨2024, 6, 10⟩, 0⟩ : GoTime).date) = true) ∧
    (goStrLe (dayKey (⟨⟨2024, 12, 30⟩, 0⟩ : GoTime).date)
        (dayKey (⟨⟨2025, 1, 2⟩, 0⟩ : GoTime).date) = true ∧
      goStrLe (weekKey (⟨⟨2024, 12, 30⟩, 0⟩ : GoTime).date)
        (weekKey (⟨⟨2025, 1, 2⟩, 0⟩ : GoTime).date) = true) :=
  ⟨C8_bucket_keys_monotone ⟨⟨2024, 6, 3⟩, 36000⟩ ⟨⟨2024, 6, 10⟩, 0⟩
      (by decide) (by decide) (by decide) (by decide) (by decide) (by decide) (by decide),
   C8_bucket_keys_monotone ⟨⟨2024, 12, 30⟩, 0⟩ ⟨⟨2025, 1, 2⟩, 0⟩
      (by decide) (by decide) (by decide) (by decide) (by decide) (by decide) (by decide)⟩
